import Mathlib

/-!
# tinysh: job table, status translation, command dispatch and the main loop

A shallow embedding of the shell (`util.c`, `shell.c`, `cli.c`, `smallsh.c`)
together with the properties established about it.

## Memory model of a pid array

A pid array is the heap block handed out by `malloc`/`realloc`: a sequence of
`pid_t` slots.  The block is the only storage the program owns, so the contents
of a job table are read off the block.

* A store to an index outside the block does not alter the block; the index is
  recorded in `oob` and execution goes on.
* A load from an index outside the block has no value the program defines; the
  run stops with `Fault.oobLoad`.

Loops carry a fuel argument; running out of it is the fault `Fault.fuel`, so
an `Except.ok` result in a statement also shows that the loop ends.
-/

namespace Tinysh

/-! ## Definitions -/

/-- Size in bytes of one `pid_t` (an `int` on the target platform). -/
def sizeofPid : Nat := 4

/-- Ways in which a run stops without a defined result. -/
inductive Fault where
  /-- A load from slot `index` of a block that is only `bytes` bytes long. -/
  | oobLoad (index : Nat) (bytes : Nat)
  /-- A local variable was read before anything was assigned to it. -/
  | uninit
  /-- A loop did not finish within its fuel. -/
  | fuel
  deriving DecidableEq, Repr

deriving instance DecidableEq for Except

/-- The heap block behind a `pid_t *`. -/
structure PidArray where
  /-- The slots of the block, in index order. -/
  cells : List Int
  /-- Size in bytes of the latest allocation request for this block. -/
  bytes : Nat
  /-- Indices of stores that fell outside the block, oldest first. -/
  oob : List Nat
  deriving DecidableEq, Repr

/-- The expression `array[i]` read as a value. -/
def PidArray.load (a : PidArray) (i : Nat) : Except Fault Int :=
  match a.cells[i]? with
  | some v => .ok v
  | none => .error (.oobLoad i a.bytes)

/-- The assignment `array[i] = v`. -/
def PidArray.store (a : PidArray) (i : Nat) (v : Int) : PidArray :=
  if i < a.cells.length then { a with cells := a.cells.set i v }
  else { a with oob := a.oob ++ [i] }

/-- The call `malloc(sizeof(pid_t) * initialSize)` of `initializeDynamicPidArray`.
The fresh slots are indeterminate in C; they are written as `0` here. -/
def initializeDynamicPidArray (initialSize : Nat) : PidArray :=
  { cells := List.replicate initialSize 0, bytes := sizeofPid * initialSize, oob := [] }

/-- The call `realloc(array, newBytes)`, resizing in place: the block keeps its
leading slots and is `newBytes` bytes long afterwards.  Resizing in place is the
case that favours the callers, which go on using the pointer they passed in. -/
def realloc (a : PidArray) (newBytes : Nat) : PidArray :=
  { cells := a.cells.take (newBytes / sizeofPid) ++
      List.replicate (newBytes / sizeofPid - a.cells.length) 0
    bytes := newBytes
    oob := a.oob }

/-- The copy loop of `resizeDynamicArrayOfPids`:
`for (i = 0; i < currentSize; i++) assignPidToArray(tmpArray, array, i);`
where both pointers address the same block. -/
def copyLoop : Nat → Nat → Nat → PidArray → Except Fault PidArray
  | 0, _, _, _ => .error .fuel
  | fuel + 1, i, currentSize, array =>
    if i < currentSize then
      match array.load i with
      | .error e => .error e
      | .ok v => copyLoop fuel (i + 1) currentSize (array.store i v)
    else .ok array

/-- The function `resizeDynamicArrayOfPids(array, currentSize, maxSize)`;
returns the block and the new `*maxSize`. -/
def resizeDynamicArrayOfPids (array : PidArray) (currentSize maxSize : Nat) :
    Except Fault (PidArray × Nat) :=
  if currentSize = maxSize then
    let newMaxSize := maxSize * 2
    match copyLoop (currentSize + 1) 0 currentSize (realloc array newMaxSize) with
    | .error e => .error e
    | .ok tmpArray => .ok (tmpArray, newMaxSize)
  else .ok (array, maxSize)

/-- The function `appendPidToArray(array, newPid, currentSize, maxNumber)`;
returns the block, the new `*currentSize` and the new `*maxNumber`. -/
def appendPidToArray (array : PidArray) (newPid : Int) (currentSize maxNumber : Nat) :
    Except Fault (PidArray × Nat × Nat) :=
  match resizeDynamicArrayOfPids array currentSize maxNumber with
  | .error e => .error e
  | .ok (array1, maxNumber1) => .ok (array1.store currentSize newPid, currentSize + 1, maxNumber1)

/-- The inner loop of `removePidFromArray`:
`for (j = i; j < *currentSize; j++) if (j+1 < *currentSize) array[j] = array[j + 1];`
returns the block and the value of `j` on leaving the loop. -/
def shiftLoop : Nat → Nat → Nat → PidArray → Except Fault (PidArray × Nat)
  | 0, _, _, _ => .error .fuel
  | fuel + 1, j, currentSize, array =>
    if j < currentSize then
      if j + 1 < currentSize then
        match array.load (j + 1) with
        | .error e => .error e
        | .ok v => shiftLoop fuel (j + 1) currentSize (array.store j v)
      else shiftLoop fuel (j + 1) currentSize array
    else .ok (array, j)

/-- The outer loop of `removePidFromArray`, from index `i` on. -/
def removeLoop (pidToRemove : Int) : Nat → Nat → PidArray → Nat → Except Fault (PidArray × Nat)
  | 0, _, _, _ => .error .fuel
  | fuel + 1, i, array, currentSize =>
    if i < currentSize then
      match array.load i with
      | .error e => .error e
      | .ok v =>
        if i = currentSize - 1 ∧ v = pidToRemove then
          removeLoop pidToRemove fuel (i + 1) (array.store i 0) (currentSize - 1)
        else if v = pidToRemove then
          match shiftLoop (currentSize + 1) i currentSize array with
          | .error e => .error e
          | .ok (array1, j) =>
            removeLoop pidToRemove fuel (i + 1) (array1.store (j + 1) 0) (currentSize - 1)
        else removeLoop pidToRemove fuel (i + 1) array currentSize
    else .ok (array, currentSize)

/-- The function `removePidFromArray(array, pidToRemove, currentSize)`;
returns the block and the new `*currentSize`. -/
def removePidFromArray (array : PidArray) (pidToRemove : Int) (currentSize : Nat) :
    Except Fault (PidArray × Nat) :=
  removeLoop pidToRemove (currentSize + 1) 0 array currentSize

/-- The function `resolveBackgroundRun(foregroundOnly, runInBackground)`. -/
def resolveBackgroundRun (foregroundOnly runInBackground : Int) : Int :=
  if foregroundOnly = 1 then 0 else runInBackground

/-! ### Status translation (`shell.c`) -/

/-- Modelled from the spec: the macro `WTERMSIG` comes from the platform header
`<sys/wait.h>`, which is not part of the repository; it is the low seven bits of
the wait status (`status & 0x7f`). -/
def WTERMSIG (status : Nat) : Nat := status % 128

/-- Modelled from the spec: the macro `WEXITSTATUS` comes from the platform header
`<sys/wait.h>`; it is bits 8..15 of the wait status (`(status & 0xff00) >> 8`). -/
def WEXITSTATUS (status : Nat) : Nat := (status / 256) % 256

/-- Modelled from the spec: the macro `WIFEXITED` comes from the platform header
`<sys/wait.h>`; it holds when the low seven bits of the wait status are zero. -/
def WIFEXITED (status : Nat) : Bool := WTERMSIG status == 0

/-- The conversion `(signed char) v` of a small non-negative value. -/
def toSignedChar (v : Nat) : Int :=
  if v % 256 < 128 then ((v % 256 : Nat) : Int) else ((v % 256 : Nat) : Int) - 256

/-- Modelled from the spec: the macro `WIFSIGNALED` comes from the platform header
`<sys/wait.h>`; the Linux definition is
`((signed char) ((status & 0x7f) + 1) >> 1) > 0`. -/
def WIFSIGNALED (status : Nat) : Bool := decide (0 < toSignedChar (status % 128 + 1) / 2)

/-- The pair `(*terminationStatus, *signalOrTerminated)`. -/
structure TerminationRecord where
  terminationStatus : Int
  signalOrTerminated : Int
  deriving DecidableEq, Repr

/-- The function `assignChildStatus(childStatus, terminationStatus, signalOrTerminated)`. -/
def assignChildStatus (childStatus : Nat) (r : TerminationRecord) : TerminationRecord :=
  if WIFEXITED childStatus then
    { signalOrTerminated := 0, terminationStatus := (WEXITSTATUS childStatus : Nat) }
  else if WIFSIGNALED childStatus then
    { signalOrTerminated := 1, terminationStatus := (WTERMSIG childStatus : Nat) }
  else r

/-- What `waitpid` hands back: its return value and the status it stores,
which is meaningful when the return value is positive. -/
structure WaitResult where
  ret : Int
  status : Nat
  deriving DecidableEq, Repr

/-- Answers of the operating system to the calls the shell makes. -/
structure Env where
  /-- Result of `waitpid(pid, &status, WNOHANG)`. -/
  waitNoHang : Int → WaitResult
  /-- Result of `waitpid(pid, &status, 0)`. -/
  waitBlocking : Int → WaitResult
  /-- Return value of `fork()`. -/
  forkResult : Int
  /-- Return value of `getpid()`. -/
  shellPid : Int
  /-- The directory `assignHomeDirectory` finds. -/
  home : String
  /-- Whether `opendir` succeeds on a path. -/
  directoryExists : String → Bool
  /-- Return value of `open` on a path. -/
  openResult : String → Int
  /-- Whether `execvp` fails and returns. -/
  execFails : Bool

/-- What the shell process has done that can be seen from outside. -/
structure World where
  /-- Text written to standard output, one entry per `printf` call. -/
  out : List String
  /-- Messages passed to `perror`. -/
  err : List String
  /-- Process ids passed to `waitpid(…, WNOHANG)`, in call order. -/
  polls : List Int
  /-- Process ids passed to the blocking `waitpid`, in call order. -/
  blocks : List Int
  /-- Paths passed to `chdir`, in call order. -/
  chdirs : List String
  deriving DecidableEq, Repr

/-- A call of `printf` with the text it produces. -/
def World.print (w : World) (text : String) : World := { w with out := w.out ++ [text] }

/-- The function `executeStatusCommand(terminationStatus, signalOrTerminated)`. -/
def executeStatusCommand (r : TerminationRecord) (w : World) : World :=
  if r.signalOrTerminated = 0 then
    w.print ("exit value " ++ toString r.terminationStatus ++ "\n")
  else if r.signalOrTerminated = 1 then
    w.print ("terminated by signal " ++ toString r.terminationStatus ++ "\n")
  else w

/-- The function `checkBackgroundPidStatus(pid)`.  Its locals `terminationStatus`
and `signalOrTerminated` start uninitialised; when `assignChildStatus` assigns
neither, `executeStatusCommand` reads them and the run stops with `Fault.uninit`. -/
def checkBackgroundPidStatus (env : Env) (w : World) (pid : Int) : Except Fault (World × Int) :=
  let r := env.waitNoHang pid
  let w1 := { w with polls := w.polls ++ [pid] }
  if 0 < r.ret then
    let w2 := w1.print ("background pid " ++ toString pid ++ " is done: ")
    if WIFEXITED r.status || WIFSIGNALED r.status then
      .ok (executeStatusCommand (assignChildStatus r.status ⟨0, 0⟩) w2, 1)
    else .error .uninit
  else .ok (w1, 0)

/-- The first loop of `monitorBackgroundPids`: poll every tracked pid and stage
the finished ones.  Returns the world, the staging block, `*numberOfTerminatedPids`
and `*maxNumberOfTerminatedPids`. -/
def monitorScan (env : Env) (pidArray : PidArray) (numberOfPids : Nat) :
    Nat → Nat → World → PidArray → Nat → Nat → Except Fault (World × PidArray × Nat × Nat)
  | 0, _, _, _, _, _ => .error .fuel
  | fuel + 1, i, w, terminatedPids, numberOfTerminatedPids, maxNumberOfTerminatedPids =>
    if i < numberOfPids then
      match pidArray.load i with
      | .error e => .error e
      | .ok pid =>
        match checkBackgroundPidStatus env w pid with
        | .error e => .error e
        | .ok (w1, bgPidStatus) =>
          if bgPidStatus ≠ 0 then
            match appendPidToArray terminatedPids pid numberOfTerminatedPids
                maxNumberOfTerminatedPids with
            | .error e => .error e
            | .ok (terminatedPids1, numberOfTerminatedPids1, maxNumberOfTerminatedPids1) =>
              monitorScan env pidArray numberOfPids fuel (i + 1) w1 terminatedPids1
                numberOfTerminatedPids1 maxNumberOfTerminatedPids1
          else
            monitorScan env pidArray numberOfPids fuel (i + 1) w1 terminatedPids
              numberOfTerminatedPids maxNumberOfTerminatedPids
    else .ok (w, terminatedPids, numberOfTerminatedPids, maxNumberOfTerminatedPids)

/-- The second loop of `monitorBackgroundPids`: remove every staged pid from the
job table and clear its staging slot.  Returns the job table, the staging block
and `*numberOfPids`. -/
def monitorPrune (numberOfTerminatedPids : Nat) :
    Nat → Nat → PidArray → PidArray → Nat → Except Fault (PidArray × PidArray × Nat)
  | 0, _, _, _, _ => .error .fuel
  | fuel + 1, i, pidArray, terminatedPids, numberOfPids =>
    if i < numberOfTerminatedPids then
      match terminatedPids.load i with
      | .error e => .error e
      | .ok pid =>
        match removePidFromArray pidArray pid numberOfPids with
        | .error e => .error e
        | .ok (pidArray1, numberOfPids1) =>
          monitorPrune numberOfTerminatedPids fuel (i + 1) pidArray1 (terminatedPids.store i 0)
            numberOfPids1
    else .ok (pidArray, terminatedPids, numberOfPids)

/-- The job-table variables `monitorBackgroundPids` works on. -/
structure Jobs where
  pidArray : PidArray
  terminatedPids : PidArray
  numberOfPids : Nat
  maxNumberOfPids : Nat
  numberOfTerminatedPids : Nat
  maxNumberOfTerminatedPids : Nat
  deriving DecidableEq, Repr

/-- The function `monitorBackgroundPids`. -/
def monitorBackgroundPids (env : Env) (w : World) (j : Jobs) : Except Fault (World × Jobs) :=
  match monitorScan env j.pidArray j.numberOfPids (j.numberOfPids + 1) 0 w j.terminatedPids
      j.numberOfTerminatedPids j.maxNumberOfTerminatedPids with
  | .error e => .error e
  | .ok (w1, terminatedPids1, numberOfTerminatedPids1, maxNumberOfTerminatedPids1) =>
    match monitorPrune numberOfTerminatedPids1 (numberOfTerminatedPids1 + 1) 0 j.pidArray
        terminatedPids1 j.numberOfPids with
    | .error e => .error e
    | .ok (pidArray1, terminatedPids2, numberOfPids1) =>
      .ok (w1, { pidArray := pidArray1
                 terminatedPids := terminatedPids2
                 numberOfPids := numberOfPids1
                 maxNumberOfPids := j.maxNumberOfPids
                 numberOfTerminatedPids := 0
                 maxNumberOfTerminatedPids := maxNumberOfTerminatedPids1 })

/-! ### Command dispatch (`shell.c`, `util.c`) -/

/-- The library function `strncmp(s1, s2, n)` on NUL-terminated strings given by
the characters before the NUL.  The result is `0` when the strings agree on
their first `n` characters or up to their common end; otherwise it is negative
or positive according to the first two characters that differ (C fixes only the
sign; `-1` and `1` stand for it here). -/
def strncmp : List Char → List Char → Nat → Int
  | _, _, 0 => 0
  | [], [], _ + 1 => 0
  | [], _ :: _, _ + 1 => -1
  | _ :: _, [], _ + 1 => 1
  | a :: as, b :: bs, n + 1 =>
    if a = b then strncmp as bs n else if a.toNat < b.toNat then -1 else 1

/-- The function `travelToDirectory(destinationDirectory)`. -/
def travelToDirectory (env : Env) (w : World) (destinationDirectory : String) : World :=
  if env.directoryExists destinationDirectory then
    { w with chdirs := w.chdirs ++ [destinationDirectory] }
  else w.print ("The " ++ destinationDirectory ++ " directory doesnt exist.\n")

/-- The function `executeChangeDirectory(targetDirectory)`; `none` is the null
pointer. -/
def executeChangeDirectory (env : Env) (w : World) (targetDirectory : Option String) : World :=
  match targetDirectory with
  | none => travelToDirectory env w env.home
  | some d => travelToDirectory env w d

/-- The variables `processCommand` reaches through its pointer parameters. -/
structure CmdState where
  exitIndicator : Int
  terminationStatus : Int
  signalOrTerminated : Int
  runInBackground : Int
  deriving DecidableEq, Repr

/-- The function `processSingleThreadedCommand`; `arg0` is `inputArgs[0]` and
`rest` holds `inputArgs[1]` onwards up to the terminating null pointer. -/
def processSingleThreadedCommand (env : Env) (w : World) (arg0 : String) (rest : List String)
    (st : CmdState) : CmdState × World :=
  if strncmp arg0.toList "cd".toList 2 = 0 then
    (st, executeChangeDirectory env w rest.head?)
  else if strncmp arg0.toList "exit".toList 4 = 0 then
    ({ st with exitIndicator := 1 }, w)
  else if strncmp arg0.toList "status".toList 5 = 0 then
    (st, executeStatusCommand ⟨st.terminationStatus, st.signalOrTerminated⟩ w)
  else (st, w)

/-- Steps taken by the child process between `fork` and its end. -/
inductive ChildAct where
  /-- The call `sigaction(SIGINT, &SIGINT_action, NULL)` installing `handle_SIGINT`. -/
  | sigactionSigint
  /-- The call `open(path, flags, mode)`. -/
  | openFile (path : String) (flags : List String) (mode : List String)
  /-- The call `dup2(fd, target)`. -/
  | dup2 (fd : Int) (target : Int)
  /-- The call `close(fd)`. -/
  | close (fd : Int)
  /-- A call of `printf` with the text it produces. -/
  | print (text : String)
  /-- The call `execvp(file, argv)`. -/
  | execvp (file : String) (argv : List String)
  /-- The call `perror(text)`. -/
  | perror (text : String)
  /-- The call `exit(code)`. -/
  | exit (code : Int)
  deriving DecidableEq, Repr

/-- The function `redirectStdout(redirectOutput, outputRedirect)`: the steps it
takes and the descriptor it returns. -/
def redirectStdout (env : Env) (redirectOutput : Int) (outputRedirect : String) :
    List ChildAct × Int :=
  if redirectOutput ≠ 0 then
    let fileDesc := env.openResult outputRedirect
    ([.openFile outputRedirect ["O_RDWR", "O_CREAT"] ["S_IRUSR", "S_IWUSR"], .dup2 fileDesc 1],
      fileDesc)
  else ([], 0)

/-- The function `redirectStdin(redirectInput, inputRedirect)`: the steps it
takes and the descriptor it returns. -/
def redirectStdin (env : Env) (redirectInput : Int) (inputRedirect : String) :
    List ChildAct × Int :=
  if redirectInput ≠ 0 then
    let fileDesc := env.openResult inputRedirect
    ([.openFile inputRedirect ["O_RDONLY"] [], .dup2 fileDesc 0], fileDesc)
  else ([], 0)

/-- The function `closeFile(isFileOpen, fileDescriptor)`. -/
def closeFile (isFileOpen : Int) (fileDescriptor : Int) : List ChildAct :=
  if isFileOpen ≠ 0 then [.close fileDescriptor] else []

/-- The function `executeCommand(inputArgs)`; `perror` is reached only when
`execvp` returns, that is, when it failed. -/
def executeCommand (env : Env) (arg0 : String) (rest : List String) : List ChildAct :=
  if env.execFails then [.execvp arg0 (arg0 :: rest), .perror arg0]
  else [.execvp arg0 (arg0 :: rest)]

/-- The `case 0` branch of `processMultiThreadedCommand`: what the child does. -/
def childBranch (env : Env) (arg0 : String) (rest : List String) (runInBackground : Int)
    (redirectInput redirectOutput : Int) (inputRedirect outputRedirect : String) :
    List ChildAct :=
  let sig : List ChildAct := if runInBackground ≠ 1 then [.sigactionSigint] else []
  let o := redirectStdout env redirectOutput outputRedirect
  if o.2 < 0 then
    sig ++ o.1 ++ [.print ("cannot open " ++ outputRedirect ++ " for output\n"), .exit 1]
  else
    let i := redirectStdin env redirectInput inputRedirect
    if i.2 < 0 then
      sig ++ o.1 ++ closeFile redirectOutput o.2 ++ i.1 ++
        [.print ("cannot open " ++ inputRedirect ++ " for input\n"), .exit 1]
    else
      sig ++ o.1 ++ closeFile redirectOutput o.2 ++ i.1 ++ closeFile redirectInput i.2 ++
        executeCommand env arg0 rest ++ (if env.execFails then [.exit 1] else [])

/-- How a call of `processCommand` ends. -/
inductive Launch where
  /-- The call returned `pid` to the shell's main loop. -/
  | returned (pid : Int) (st : CmdState) (w : World)
  /-- The process is the forked child; it took these steps and never returns. -/
  | child (acts : List ChildAct)
  deriving DecidableEq, Repr

/-- The function `processMultiThreadedCommand`.  The local `childStatus` is only
assigned by a `waitpid` that returns a positive value; reading it otherwise stops
the run with `Fault.uninit`. -/
def processMultiThreadedCommand (env : Env) (w : World) (arg0 : String) (rest : List String)
    (st : CmdState) (redirectInput redirectOutput : Int)
    (inputRedirect outputRedirect : String) : Except Fault Launch :=
  let spawnPid := env.forkResult
  if spawnPid = -1 then
    .ok (.returned spawnPid st { w with err := w.err ++ ["fork()\n"] })
  else if spawnPid = 0 then
    .ok (.child (childBranch env arg0 rest st.runInBackground redirectInput redirectOutput
      inputRedirect outputRedirect))
  else if st.runInBackground = 1 then
    let w1 := { w with polls := w.polls ++ [spawnPid] }
    .ok (.returned spawnPid st (w1.print ("background pid is " ++ toString spawnPid ++ "\n")))
  else
    let r := env.waitBlocking spawnPid
    let w1 := { w with blocks := w.blocks ++ [spawnPid] }
    if 0 < r.ret then
      let t := assignChildStatus r.status ⟨st.terminationStatus, st.signalOrTerminated⟩
      let st1 := { st with terminationStatus := t.terminationStatus
                           signalOrTerminated := t.signalOrTerminated }
      if t.signalOrTerminated = 1 then .ok (.returned r.ret st1 (executeStatusCommand t w1))
      else .ok (.returned r.ret st1 w1)
    else .error .uninit

/-- The function `processCommand`. -/
def processCommand (env : Env) (w : World) (arg0 : String) (rest : List String)
    (st : CmdState) (redirectInput redirectOutput : Int)
    (inputRedirect outputRedirect : String) : Except Fault Launch :=
  if strncmp arg0.toList "cd".toList 2 = 0 ∨ strncmp arg0.toList "exit".toList 4 = 0 ∨
      strncmp arg0.toList "status".toList 5 = 0 ∨ strncmp arg0.toList "#".toList 1 = 0 then
    let r := processSingleThreadedCommand env w arg0 rest st
    .ok (.returned env.shellPid { r.1 with runInBackground := 0 } r.2)
  else
    processMultiThreadedCommand env w arg0 rest st redirectInput redirectOutput
      inputRedirect outputRedirect

/-! ### The main loop (`smallsh.c`) -/

/-- The variables of `main`, and the global `FOREGROUND_ONLY`, between two
statements of the loop. -/
structure Shell where
  FOREGROUND_ONLY : Int
  runInBackground : Int
  exit : Int
  terminationStatus : Int
  signalOrTerminated : Int
  redirectInput : Int
  redirectOutput : Int
  /-- The entries of `inputArgs` before its first null pointer. -/
  inputArgs : List String
  inputRedirect : String
  outputRedirect : String
  jobs : Jobs
  deriving DecidableEq, Repr

/-- How one pass through the loop of `main` ends. -/
inductive Iteration where
  /-- The shell goes on to the loop test with this state. -/
  | continued (sh : Shell) (w : World)
  /-- The process is a forked child; it took these steps and never returns. -/
  | child (acts : List ChildAct)
  deriving DecidableEq, Repr

/-- The statements of the loop of `main` that follow the call of `processCommand`,
given how that call ended; `sh` holds the variables as they were at the call. -/
def afterCommand (env : Env) (sh : Shell) : Launch → Except Fault Iteration
  | .child acts => .ok (.child acts)
  | .returned tmpPid st w =>
    let appended : Except Fault (PidArray × Nat × Nat) :=
      if st.runInBackground = 1 then
        appendPidToArray sh.jobs.pidArray tmpPid sh.jobs.numberOfPids sh.jobs.maxNumberOfPids
      else .ok (sh.jobs.pidArray, sh.jobs.numberOfPids, sh.jobs.maxNumberOfPids)
    match appended with
    | .error e => .error e
    | .ok (pidArray1, numberOfPids1, maxNumberOfPids1) =>
      let jobs1 := { sh.jobs with pidArray := pidArray1
                                  numberOfPids := numberOfPids1
                                  maxNumberOfPids := maxNumberOfPids1 }
      match monitorBackgroundPids env w jobs1 with
      | .error e => .error e
      | .ok (w1, jobs2) =>
        .ok (.continued
          { sh with exit := st.exitIndicator
                    terminationStatus := st.terminationStatus
                    signalOrTerminated := st.signalOrTerminated
                    inputArgs := []
                    runInBackground := 0
                    redirectInput := 0
                    redirectOutput := 0
                    jobs := jobs2 } w1)

/-- The body of the loop of `main` from the call of `resolveBackgroundRun` on,
that is, after `parseArgs` has filled in the variables of `sh`. -/
def mainIteration (env : Env) (w : World) (sh : Shell) : Except Fault Iteration :=
  let sh1 := { sh with runInBackground := resolveBackgroundRun sh.FOREGROUND_ONLY sh.runInBackground }
  match sh1.inputArgs with
  | [] =>
    match monitorBackgroundPids env w sh1.jobs with
    | .error e => .error e
    | .ok (w1, jobs1) => .ok (.continued { sh1 with jobs := jobs1 } w1)
  | arg0 :: rest =>
    match processCommand env w arg0 rest
        { exitIndicator := sh1.exit
          terminationStatus := sh1.terminationStatus
          signalOrTerminated := sh1.signalOrTerminated
          runInBackground := sh1.runInBackground }
        sh1.redirectInput sh1.redirectOutput sh1.inputRedirect sh1.outputRedirect with
    | .error e => .error e
    | .ok l => afterCommand env sh1 l

/-! ### Reading a command line (`cli.c`) -/

/-- The tokens that the calls `strtok(inputBuffer, " ")`, `strtok(NULL, " ")`, …
hand out, in order: the maximal runs of characters other than the space.  `cur`
holds the characters of the token being read. -/
def strtokAll (cur : List Char) : List Char → List (List Char)
  | [] => if cur = [] then [] else [cur]
  | c :: cs =>
    if c = ' ' then
      if cur = [] then strtokAll [] cs else cur :: strtokAll [] cs
    else strtokAll (cur ++ [c]) cs

/-- The statement `token[strcspn(token, "\n")] = 0`: the token is cut at its
first newline. -/
def stripNewline (token : List Char) : List Char := token.takeWhile (fun c => c ≠ '\n')

/-- The variables `parseArgs` works on while it walks over the tokens: what it
reaches through its parameters, and its locals. -/
structure ParseState where
  /-- The entries `inputArgs[0 .. argsCount-1]`. -/
  inputArgs : List String
  redirectInput : Int
  redirectOutput : Int
  inputRedirect : String
  outputRedirect : String
  backgroundProcess : Int
  nextIsInputRedirect : Int
  alreadyRedirectedInput : Int
  nextIsOutputRedirect : Int
  alreadyRedirectedOutput : Int
  deriving DecidableEq, Repr

/-- The body of the `while (token != NULL)` loop of `parseArgs` for one token. -/
def parseToken (p : ParseState) (rawToken : List Char) : ParseState :=
  let token := stripNewline rawToken
  if p.nextIsInputRedirect ≠ 0 then
    { p with inputRedirect := String.mk token
             nextIsInputRedirect := 0
             alreadyRedirectedInput := 1 }
  else if p.nextIsOutputRedirect ≠ 0 then
    { p with outputRedirect := String.mk token
             nextIsOutputRedirect := 0
             alreadyRedirectedOutput := 1 }
  else if strncmp token "&".toList 1 = 0 then
    { p with backgroundProcess := 1 }
  else if strncmp token "<".toList 1 = 0 ∧ p.alreadyRedirectedInput = 0 then
    { p with nextIsInputRedirect := 1, redirectInput := 1 }
  else if strncmp token ">".toList 1 = 0 ∧ p.alreadyRedirectedOutput = 0 then
    { p with nextIsOutputRedirect := 1, redirectOutput := 1 }
  else
    { p with inputArgs := p.inputArgs ++ [String.mk token] }

/-- The function `parseArgs`, called as in `main`; `line` is what `fgets` has put
into `inputBuffer` (a line ends in its newline).  When the buffer starts with a
newline nothing is assigned; otherwise the tokens are walked over and
`inputArgs[argsCount]` is set to the null pointer. -/
def parseArgs (line : String) (sh : Shell) : Shell :=
  if line.toList.head? ≠ some '\n' then
    let p := (strtokAll [] line.toList).foldl parseToken
      { inputArgs := []
        redirectInput := sh.redirectInput
        redirectOutput := sh.redirectOutput
        inputRedirect := sh.inputRedirect
        outputRedirect := sh.outputRedirect
        backgroundProcess := sh.runInBackground
        nextIsInputRedirect := 0
        alreadyRedirectedInput := 0
        nextIsOutputRedirect := 0
        alreadyRedirectedOutput := 0 }
    { sh with inputArgs := p.inputArgs
              redirectInput := p.redirectInput
              redirectOutput := p.redirectOutput
              inputRedirect := p.inputRedirect
              outputRedirect := p.outputRedirect
              runInBackground := p.backgroundProcess }
  else sh

/-- The function `displayPrompt`. -/
def displayPrompt (w : World) : World := w.print ":"

/-- One pass through the body of the loop of `main`, reading `line`. -/
def mainPass (env : Env) (w : World) (line : String) (sh : Shell) : Except Fault Iteration :=
  mainIteration env (displayPrompt w) (parseArgs line sh)

/-- The loop `while (!exit)` of `main`, fed with the given input lines; it stops
here when the lines run out. -/
def mainLoop (env : Env) : List String → World → Shell → Except Fault Iteration
  | [], w, sh => .ok (.continued sh w)
  | line :: lines, w, sh =>
    if sh.exit ≠ 0 then .ok (.continued sh w)
    else
      match mainPass env w line sh with
      | .error e => .error e
      | .ok (.child acts) => .ok (.child acts)
      | .ok (.continued sh1 w1) => mainLoop env lines w1 sh1

/-- The constant `STARTING_NUMBER_OF_BG_PIDS`. -/
def STARTING_NUMBER_OF_BG_PIDS : Nat := 4

/-- The variables of `main` when the loop is entered. -/
def shellInit : Shell :=
  { FOREGROUND_ONLY := 0
    runInBackground := 0
    exit := 0
    terminationStatus := 0
    signalOrTerminated := 0
    redirectInput := 0
    redirectOutput := 0
    inputArgs := []
    inputRedirect := ""
    outputRedirect := ""
    jobs :=
      { pidArray := initializeDynamicPidArray STARTING_NUMBER_OF_BG_PIDS
        terminatedPids := initializeDynamicPidArray STARTING_NUMBER_OF_BG_PIDS
        numberOfPids := 0
        maxNumberOfPids := STARTING_NUMBER_OF_BG_PIDS
        numberOfTerminatedPids := 0
        maxNumberOfTerminatedPids := STARTING_NUMBER_OF_BG_PIDS } }

/-! ### The foreground-only signal (`smallsh.c`) -/

/-- The signal handler `handle_SIGTSTP`, acting on the global `FOREGROUND_ONLY`. -/
def handle_SIGTSTP (sh : Shell) (w : World) : Shell × World :=
  if sh.FOREGROUND_ONLY = 0 then
    ({ sh with FOREGROUND_ONLY := 1 },
      w.print "Entering foreground-only mode (& is now ignored)\n")
  else if sh.FOREGROUND_ONLY = 1 then
    ({ sh with FOREGROUND_ONLY := 0 }, w.print "Exiting foreground-only mode\n")
  else (sh, w)

/-! ### Files behind a redirection -/

/-- Modelled from the spec: the system call `open` is not part of the repository.
The content of the file once it is open, given the flags and the content it had,
if it existed: with `O_CREAT` a missing file is created empty, with `O_TRUNC` an
existing file is cut to length zero, and without it the content stays. -/
def openedContent (flags : List String) (existing : Option (List Char)) : Option (List Char) :=
  match existing with
  | none => if "O_CREAT" ∈ flags then some [] else none
  | some content => if "O_TRUNC" ∈ flags then some [] else some content

/-- Modelled from the spec: the system call `write` is not part of the repository.
Writing `written` through a descriptor that was just opened (offset zero, no
`O_APPEND`) overwrites the start of the file and keeps what lies beyond. -/
def writeFromStart (content written : List Char) : List Char :=
  written ++ content.drop written.length

/-- The file behind standard output after the child has taken the steps `acts`
of `redirectStdout` and the program has written `written`; `none` when the file
does not exist. -/
def stdoutFileAfter (acts : List ChildAct) (existing : Option (List Char))
    (written : List Char) : Option (List Char) :=
  match acts with
  | .openFile _ flags _ :: _ =>
    (openedContent flags existing).map (fun content => writeFromStart content written)
  | _ => existing

/-! ### Vocabulary of the statements -/

/-- Whether the non-blocking check of `pid` reports that it has terminated, that
is, whether `waitpid(pid, &status, WNOHANG)` returns a positive value. -/
def reportsTermination (env : Env) (pid : Int) : Bool := decide (0 < (env.waitNoHang pid).ret)

/-- Whether a wait status is that of a process that has terminated, by exit or by
signal, as opposed to one that was stopped or continued. -/
def isTerminationStatus (status : Nat) : Bool := WIFEXITED status || WIFSIGNALED status

/-- The handles of a job table: the first `numberOfPids` slots of `pidArray`. -/
def Jobs.handles (j : Jobs) : List Int := j.pidArray.cells.take j.numberOfPids

/-- The notice that belongs to a value of `FOREGROUND_ONLY`: the mode-entry notice
for 1, the mode-exit notice for 0. -/
def modeNotice (flag : Int) : String :=
  if flag = 1 then "Entering foreground-only mode (& is now ignored)\n"
  else "Exiting foreground-only mode\n"

/-! ### Sample values -/

/-- A sample environment: pid 12 has exited with code 3, pid 14 was killed by
signal 9, every other pid is still running; `fork` yields pid 50, which exits
with code 2 when waited for. -/
def envSample : Env :=
  { waitNoHang := fun p => if p = 12 then ⟨12, 768⟩ else if p = 14 then ⟨14, 9⟩ else ⟨0, 0⟩
    waitBlocking := fun p => ⟨p, 512⟩
    forkResult := 50
    shellPid := 7
    home := "/home/u"
    directoryExists := fun _ => true
    openResult := fun _ => 3
    execFails := false }

/-- A world in which nothing has happened yet. -/
def worldEmpty : World := { out := [], err := [], polls := [], blocks := [], chdirs := [] }

/-- A sample job table: the handles 11, 12, 13, 14 in a block of four slots, and
an empty staging array of four slots. -/
def jobsSample : Jobs :=
  { pidArray := ⟨[11, 12, 13, 14], 16, []⟩
    terminatedPids := initializeDynamicPidArray 4
    numberOfPids := 4
    maxNumberOfPids := 4
    numberOfTerminatedPids := 0
    maxNumberOfTerminatedPids := 4 }

/-- A sample state of `main` after `parseArgs` has read the line `sleep 5 &`
while foreground-only mode is on. -/
def shellSample : Shell :=
  { FOREGROUND_ONLY := 1
    runInBackground := 1
    exit := 0
    terminationStatus := 0
    signalOrTerminated := 0
    redirectInput := 0
    redirectOutput := 0
    inputArgs := ["sleep", "5"]
    inputRedirect := ""
    outputRedirect := ""
    jobs := jobsSample }

/-- The sample environment, except that `fork` fails. -/
def envForkFails : Env := { envSample with forkResult := -1 }

/-- The sample environment seen from the forked child: `fork` returns 0. -/
def envInChild : Env := { envSample with forkResult := 0 }

/-- The sample environment, except that no pid is a child that can be waited
for: every non-blocking `waitpid` returns -1. -/
def envNoChild : Env := { envSample with waitNoHang := fun _ => ⟨-1, 0⟩ }

/-- A job table that holds the single handle 13, in a block of four slots. -/
def jobsSingle : Jobs :=
  { jobsSample with pidArray := ⟨[13, 0, 0, 0], 16, []⟩, numberOfPids := 1 }

/-- An environment in which every pid has exited with code 0 when it is polled. -/
def envAllDone : Env := { envSample with waitNoHang := fun p => ⟨p, 0⟩ }

/-- A job table of five distinct handles in a block of eight slots (32 bytes),
with the empty staging array of four slots that `main` allocates. -/
def jobsFive : Jobs :=
  { pidArray := ⟨[11, 12, 13, 14, 15, 0, 0, 0], 32, []⟩
    terminatedPids := initializeDynamicPidArray STARTING_NUMBER_OF_BG_PIDS
    numberOfPids := 5
    maxNumberOfPids := 8
    numberOfTerminatedPids := 0
    maxNumberOfTerminatedPids := STARTING_NUMBER_OF_BG_PIDS }

/-! ## Theorems -/

/-! ### Loads and stores -/

theorem load_of_lt (a : PidArray) (i : Nat) (h : i < a.cells.length) :
    a.load i = .ok (a.cells[i]) := by
  simp [PidArray.load, List.getElem?_eq_getElem h]

/-- A store inside the block overwrites the slot. -/
theorem store_of_lt (a : PidArray) (i : Nat) (v : Int) (h : i < a.cells.length) :
    a.store i v = { a with cells := a.cells.set i v } := by
  simp [PidArray.store, h]

/-- A store never changes the number of slots. -/
theorem store_cells_length (a : PidArray) (i : Nat) (v : Int) :
    (a.store i v).cells.length = a.cells.length := by
  unfold PidArray.store
  split <;> simp

/-- A store never changes the recorded allocation size. -/
theorem store_bytes (a : PidArray) (i : Nat) (v : Int) : (a.store i v).bytes = a.bytes := by
  unfold PidArray.store
  split <;> rfl

/-- A store outside the block leaves every slot as it was. -/
theorem store_cells_of_ge (a : PidArray) (i : Nat) (v : Int) (h : a.cells.length ≤ i) :
    (a.store i v).cells = a.cells := by
  simp [PidArray.store, Nat.not_lt.mpr h]

/-- A store leaves every other slot as it was. -/
theorem store_getElem? (a : PidArray) (i : Nat) (v : Int) (k : Nat) (hk : k ≠ i) :
    (a.store i v).cells[k]? = a.cells[k]? := by
  unfold PidArray.store
  split
  · simp [List.getElem?_set_ne (Ne.symm hk)]
  · rfl

/-- The outer loop of `removePidFromArray` changes nothing when the handle does not
occur from index `i` on. -/
theorem removeLoop_absent (h : Int) :
    ∀ (fuel i : Nat) (a : PidArray) (n : Nat), 1 ≤ fuel → n ≤ a.cells.length → n + 1 ≤ fuel + i →
      (∀ k, i ≤ k → k < n → a.cells[k]? ≠ some h) →
      removeLoop h fuel i a n = .ok (a, n) := by
  intro fuel
  induction fuel with
  | zero => intro i a n hi _ hf _; omega
  | succ f ih =>
    intro i a n _ hn hf hne
    unfold removeLoop
    by_cases hlt : i < n
    · have hil : i < a.cells.length := by omega
      have hv : a.cells[i] ≠ h := by
        intro he
        exact hne i (Nat.le_refl i) hlt (by simp [List.getElem?_eq_getElem hil, he])
      simp only [hlt, if_true, load_of_lt a i hil, hv, and_false, if_false]
      exact ih (i + 1) a n (by omega) hn (by omega) (fun k hk hkn => hne k (by omega) hkn)
    · simp [hlt]

/-- The inner loop of `removePidFromArray` moves the slots `j+1 .. n-1` one place
down and leaves the loop with `j = n`. -/
theorem shiftLoop_spec :
    ∀ (fuel j : Nat) (a : PidArray) (n : Nat), j ≤ n → n ≤ a.cells.length → n + 1 ≤ fuel + j →
      ∃ a1, shiftLoop fuel j n a = .ok (a1, n) ∧ a1.bytes = a.bytes ∧ a1.oob = a.oob ∧
        a1.cells.length = a.cells.length ∧
        ∀ k, a1.cells[k]? = if j ≤ k ∧ k + 1 < n then a.cells[k + 1]? else a.cells[k]? := by
  intro fuel
  induction fuel with
  | zero => intro j a n hj _ hf; omega
  | succ f ih =>
    intro j a n hj hn hf
    unfold shiftLoop
    by_cases hlt : j < n
    · by_cases hlt1 : j + 1 < n
      · have hl1 : j + 1 < a.cells.length := by omega
        have hl0 : j < a.cells.length := by omega
        simp only [hlt, hlt1, if_true, load_of_lt a (j + 1) hl1]
        obtain ⟨a1, h1, hb, ho, hlen, hget⟩ :=
          ih (j + 1) (a.store j a.cells[j + 1]) n (by omega)
            (by rw [store_cells_length]; exact hn) (by omega)
        refine ⟨a1, h1, ?_, ?_, ?_, ?_⟩
        · rw [hb, store_bytes]
        · rw [ho, store_of_lt a j _ hl0]
        · rw [hlen, store_cells_length]
        · intro k
          rw [hget k]
          by_cases hk : j + 1 ≤ k ∧ k + 1 < n
          · have : j ≤ k ∧ k + 1 < n := ⟨by omega, hk.2⟩
            rw [if_pos hk, if_pos this]
            exact store_getElem? a j _ (k + 1) (by omega)
          · rw [if_neg hk]
            by_cases hkj : k = j
            · subst hkj
              rw [if_pos ⟨Nat.le_refl _, hlt1⟩, store_of_lt a k _ hl0]
              simp [List.getElem?_eq_getElem hl1, hl0]
            · have : ¬ (j ≤ k ∧ k + 1 < n) := by omega
              rw [if_neg this]
              exact store_getElem? a j _ k hkj
      · simp only [hlt, hlt1, if_true, if_false]
        obtain ⟨a1, h1, hb, ho, hlen, hget⟩ := ih (j + 1) a n (by omega) hn (by omega)
        refine ⟨a1, h1, hb, ho, hlen, ?_⟩
        intro k
        rw [hget k]
        have h1 : ¬ (j + 1 ≤ k ∧ k + 1 < n) := by omega
        have h2 : ¬ (j ≤ k ∧ k + 1 < n) := by omega
        rw [if_neg h1, if_neg h2]
    · have : j = n := by omega
      subst this
      simp only [hlt, if_false]
      refine ⟨a, rfl, rfl, rfl, rfl, ?_⟩
      intro k
      have h2 : ¬ (j ≤ k ∧ k + 1 < j) := by omega
      rw [if_neg h2]


/-- The outer loop of `removePidFromArray` when the handle occurs exactly once from
index `i` on, at index `p`: slot by slot description of the result. -/
theorem removeLoop_found (h : Int) :
    ∀ (fuel i : Nat) (a : PidArray) (n p : Nat), i ≤ p → p < n → n ≤ a.cells.length →
      n + 1 ≤ fuel + i → a.cells[p]? = some h →
      (∀ k, i ≤ k → k < n → k ≠ p → a.cells[k]? ≠ some h) →
      ∃ a1, removeLoop h fuel i a n = .ok (a1, n - 1) ∧ a1.bytes = a.bytes ∧
        a1.cells.length = a.cells.length ∧
        (∀ k, k < n - 1 → a1.cells[k]? = if k < p then a.cells[k]? else a.cells[k + 1]?) ∧
        a1.oob = a.oob ++ (if p + 1 < n ∧ a.cells.length ≤ n + 1 then [n + 1] else []) := by
  intro fuel
  induction fuel with
  | zero => intro i a n p hi hp _ hf; omega
  | succ f ih =>
    intro i a n p hip hp hn hf hat hne
    have hpl : p < a.cells.length := by omega
    have hatv : a.cells[p] = h := by
      rw [List.getElem?_eq_getElem hpl] at hat
      exact Option.some.inj hat
    unfold removeLoop
    have hlt : i < n := by omega
    have hil : i < a.cells.length := by omega
    simp only [hlt, if_true, load_of_lt a i hil]
    by_cases hi : i = p
    · subst hi
      by_cases hlast : i = n - 1
      · simp only [hlast, hatv, true_and, if_true]
        have hlast2 : n - 1 = i := hlast.symm
        simp only [hlast2, hatv, and_self, if_true]
        refine ⟨a.store i 0, ?_, store_bytes _ _ _, store_cells_length _ _ _, ?_, ?_⟩
        · have : removeLoop h f (i + 1) (a.store i 0) i = .ok (a.store i 0, i) := by
            apply removeLoop_absent h f (i + 1) (a.store i 0) i (by omega)
              (by rw [store_cells_length]; omega) (by omega)
            intro k hk hk2; omega
          exact this
        · intro k hk
          have hki : k < i := by omega
          rw [if_pos hki]
          exact store_getElem? a i 0 k (by omega)
        · have : ¬ (i + 1 < n ∧ a.cells.length ≤ n + 1) := by omega
          rw [if_neg this, store_of_lt a i 0 hpl]
          simp
      · simp only [hatv, hlast, false_and, if_false, if_true]
        obtain ⟨a1, h1, hb, ho, hlen, hget⟩ := shiftLoop_spec (n + 1) i a n (by omega) hn (by omega)
        simp only [h1]
        refine ⟨a1.store (n + 1) 0, ?_, ?_, ?_, ?_, ?_⟩
        · apply removeLoop_absent h f (i + 1) (a1.store (n + 1) 0) (n - 1) (by omega)
            (by rw [store_cells_length, hlen]; omega) (by omega)
          intro k hk hk2
          rw [store_getElem? a1 (n + 1) 0 k (by omega), hget k,
            if_pos ⟨by omega, by omega⟩]
          exact hne (k + 1) (by omega) (by omega) (by omega)
        · rw [store_bytes, hb]
        · rw [store_cells_length, hlen]
        · intro k hk
          rw [store_getElem? a1 (n + 1) 0 k (by omega), hget k]
          by_cases hki : k < i
          · have : ¬ (i ≤ k ∧ k + 1 < n) := by omega
            rw [if_neg this, if_pos hki]
          · have : i ≤ k ∧ k + 1 < n := ⟨by omega, by omega⟩
            rw [if_pos this, if_neg hki]
        · unfold PidArray.store
          by_cases hcap : n + 1 < a1.cells.length
          · have : ¬ (i + 1 < n ∧ a.cells.length ≤ n + 1) := by rw [hlen] at hcap; omega
            simp [hcap, this, ho]
          · have : i + 1 < n ∧ a.cells.length ≤ n + 1 := by rw [hlen] at hcap; omega
            simp [hcap, this, ho]
    · have hv : a.cells[i] ≠ h := by
        intro he
        exact hne i (Nat.le_refl i) hlt hi (by simp [List.getElem?_eq_getElem hil, he])
      simp only [hv, and_false, if_false]
      exact ih (i + 1) a n p (by omega) hp hn (by omega) hat
        (fun k hk hkn hkp => hne k (by omega) hkn hkp)

/-- From the slot by slot description of a removal to the list of handles. -/
theorem take_filter_of_pointwise (l l1 : List Int) (h : Int) (n p : Nat) (hn : n ≤ l.length)
    (hlen : l1.length = l.length) (hp : p < n) (hat : l[p]? = some h)
    (hnd : (l.take n).Nodup)
    (hget : ∀ k, k < n - 1 → l1[k]? = if k < p then l[k]? else l[k + 1]?) :
    l1.take (n - 1) = (l.take n).filter (fun x => x != h) := by
  have hpL : p < (l.take n).length := by simp; omega
  have hLp : (l.take n)[p] = h := by
    have : (l.take n)[p]? = some h := by rw [List.getElem?_take_of_lt hp]; exact hat
    rw [List.getElem?_eq_getElem hpL] at this
    exact Option.some.inj this
  rw [← List.Nodup.erase_eq_filter hnd, ← hLp, List.Nodup.erase_getElem hnd]
  apply List.ext_getElem?
  intro k
  rw [List.getElem?_eraseIdx, List.getElem?_take]
  by_cases hk : k < n - 1
  · rw [if_pos hk, hget k hk]
    by_cases hkp : k < p
    · rw [if_pos hkp, if_pos hkp, List.getElem?_take_of_lt (by omega)]
    · rw [if_neg hkp, if_neg hkp, List.getElem?_take_of_lt (by omega)]
  · rw [if_neg hk]
    have hkp : ¬ k < p := by omega
    rw [if_neg hkp]
    symm
    apply List.getElem?_eq_none
    simp
    omega


/-! ### The job table: removal -/

/-- Removing a handle that occurs in a duplicate-free table: the general form
used by the sweep, which also records the block length and the stores that fell
outside the block. -/
theorem removePidFromArray_of_mem (array : PidArray) (h : Int) (currentSize : Nat)
    (hsize : currentSize ≤ array.cells.length)
    (hnodup : (array.cells.take currentSize).Nodup)
    (hmem : h ∈ array.cells.take currentSize) :
    ∃ array1 newSize, removePidFromArray array h currentSize = .ok (array1, newSize) ∧
      newSize + 1 = currentSize ∧
      array1.cells.length = array.cells.length ∧
      array1.cells.take newSize = (array.cells.take currentSize).filter (fun x => x != h) := by
  obtain ⟨p, hp, hpe⟩ := List.getElem_of_mem hmem
  have hpn : p < currentSize := by
    simp only [List.length_take] at hp
    omega
  have hat : array.cells[p]? = some h := by
    rw [← List.getElem?_take_of_lt hpn, List.getElem?_eq_getElem hp, hpe]
  have hne : ∀ k, 0 ≤ k → k < currentSize → k ≠ p → array.cells[k]? ≠ some h := by
    intro k _ hk hkp hc
    have hkL : k < (array.cells.take currentSize).length := by
      simp only [List.length_take]
      omega
    have hke : (array.cells.take currentSize)[k] = h := by
      have : (array.cells.take currentSize)[k]? = some h := by
        rw [List.getElem?_take_of_lt hk]
        exact hc
      rw [List.getElem?_eq_getElem hkL] at this
      exact Option.some.inj this
    exact hkp ((List.Nodup.getElem_inj_iff hnodup).mp (hke.trans hpe.symm))
  obtain ⟨a1, hrun, _, hlen, hget, _⟩ :=
    removeLoop_found h (currentSize + 1) 0 array currentSize p (Nat.zero_le p) hpn hsize
      (by omega) hat hne
  refine ⟨a1, currentSize - 1, hrun, by omega, hlen, ?_⟩
  exact take_filter_of_pointwise array.cells a1.cells h currentSize p hsize hlen hpn hat hnodup hget

/-- Claim C1: in a job table without duplicate handles, removing a handle `h` that
is stored in it (at any position) succeeds, leaves in the first `*currentSize`
entries exactly the original handles other than `h` in their original order, and
makes `*currentSize` one less than before. -/
theorem removePidFromArray_removes (array : PidArray) (h : Int) (currentSize : Nat)
    (hsize : currentSize ≤ array.cells.length)
    (hnodup : (array.cells.take currentSize).Nodup)
    (hmem : h ∈ array.cells.take currentSize) :
    ∃ array1 newSize, removePidFromArray array h currentSize = .ok (array1, newSize) ∧
      newSize + 1 = currentSize ∧
      array1.cells.take newSize = (array.cells.take currentSize).filter (fun x => x != h) := by
  obtain ⟨a1, m, h1, h2, _, h3⟩ := removePidFromArray_of_mem array h currentSize hsize hnodup hmem
  exact ⟨a1, m, h1, h2, h3⟩

/-- Witness for C1: the handle 12 is removed from the middle of the table
11, 12, 13, 14. -/
theorem removePidFromArray_removes_witness :
    ∃ array1 newSize,
      removePidFromArray ⟨[11, 12, 13, 14], 16, []⟩ 12 4 = .ok (array1, newSize) ∧
      newSize + 1 = 4 ∧
      array1.cells.take newSize =
        ((⟨[11, 12, 13, 14], 16, []⟩ : PidArray).cells.take 4).filter (fun x => x != 12) :=
  removePidFromArray_removes ⟨[11, 12, 13, 14], 16, []⟩ 12 4 (by decide) (by decide) (by decide)

/-- Removing a handle that does not occur among the first `currentSize` entries
changes nothing. -/
theorem removePidFromArray_of_not_mem (array : PidArray) (h : Int) (currentSize : Nat)
    (hsize : currentSize ≤ array.cells.length)
    (habsent : h ∉ array.cells.take currentSize) :
    removePidFromArray array h currentSize = .ok (array, currentSize) := by
  apply removeLoop_absent h (currentSize + 1) 0 array currentSize (by omega) hsize (by omega)
  intro k _ hk hc
  apply habsent
  have : (array.cells.take currentSize)[k]? = some h := by
    rw [List.getElem?_take_of_lt hk]
    exact hc
  exact List.getElem?_mem this

/-- Claim C2: for a job table of any contents and size, removing a handle that does
not occur among its first `*currentSize` entries changes no array entry and
leaves `*currentSize` unchanged; hence, on a duplicate-free table, a second
removal of the same handle is a no-op. -/
theorem removePidFromArray_absent_noop (array : PidArray) (h : Int) (currentSize : Nat)
    (hsize : currentSize ≤ array.cells.length) :
    (h ∉ array.cells.take currentSize →
      removePidFromArray array h currentSize = .ok (array, currentSize)) ∧
    ((array.cells.take currentSize).Nodup →
      ∃ array1 newSize, removePidFromArray array h currentSize = .ok (array1, newSize) ∧
        removePidFromArray array1 h newSize = .ok (array1, newSize)) := by
  refine ⟨removePidFromArray_of_not_mem array h currentSize hsize, ?_⟩
  intro hnodup
  by_cases hmem : h ∈ array.cells.take currentSize
  · obtain ⟨a1, m, h1, h2, hlen, h3⟩ :=
      removePidFromArray_of_mem array h currentSize hsize hnodup hmem
    refine ⟨a1, m, h1, ?_⟩
    apply removePidFromArray_of_not_mem a1 h m (by omega)
    rw [h3]
    simp
  · exact ⟨array, currentSize, removePidFromArray_of_not_mem array h currentSize hsize hmem,
      removePidFromArray_of_not_mem array h currentSize hsize hmem⟩

/-- Witness for C2: 19 is not in the table 11, 12, 13, 14, and removing 12 twice
from it is the same as removing it once. -/
theorem removePidFromArray_absent_noop_witness :
    removePidFromArray ⟨[11, 12, 13, 14], 16, []⟩ 19 4 = .ok (⟨[11, 12, 13, 14], 16, []⟩, 4) ∧
    ∃ array1 newSize,
      removePidFromArray ⟨[11, 12, 13, 14], 16, []⟩ 12 4 = .ok (array1, newSize) ∧
      removePidFromArray array1 12 newSize = .ok (array1, newSize) :=
  ⟨(removePidFromArray_absent_noop ⟨[11, 12, 13, 14], 16, []⟩ 19 4 (by decide)).1 (by decide),
   (removePidFromArray_absent_noop ⟨[11, 12, 13, 14], 16, []⟩ 12 4 (by decide)).2 (by decide)⟩

/-! ### The sweep over the job table -/

theorem print_polls (w : World) (t : String) : (w.print t).polls = w.polls := rfl

/-- The status display polls nothing. -/
theorem executeStatusCommand_polls (r : TerminationRecord) (w : World) :
    (executeStatusCommand r w).polls = w.polls := by
  unfold executeStatusCommand
  split
  · rfl
  · split <;> rfl

/-- One status check: it polls its pid once and returns 1 exactly when the poll
reports termination. -/
theorem checkBackgroundPidStatus_polls (env : Env) (w : World) (pid : Int)
    (hst : reportsTermination env pid = true → isTerminationStatus (env.waitNoHang pid).status = true) :
    ∃ w1, checkBackgroundPidStatus env w pid =
        .ok (w1, if reportsTermination env pid then 1 else 0) ∧
      w1.polls = w.polls ++ [pid] := by
  unfold checkBackgroundPidStatus
  by_cases hr : 0 < (env.waitNoHang pid).ret
  · have hrt : reportsTermination env pid = true := by simp [reportsTermination, hr]
    have hs := hst hrt
    unfold isTerminationStatus at hs
    simp only [hr, if_true, hs, hrt]
    exact ⟨_, rfl, by rw [executeStatusCommand_polls, print_polls]⟩
  · have hrt : reportsTermination env pid = false := by simp [reportsTermination, hr]
    simp only [hr, if_false, hrt]
    exact ⟨_, rfl, rfl⟩

/-- Below the recorded capacity an append is a store at index `currentSize`. -/
theorem appendPidToArray_of_ne (array : PidArray) (newPid : Int) (currentSize maxNumber : Nat)
    (hne : currentSize ≠ maxNumber) :
    appendPidToArray array newPid currentSize maxNumber =
      .ok (array.store currentSize newPid, currentSize + 1, maxNumber) := by
  simp [appendPidToArray, resizeDynamicArrayOfPids, hne]

/-- After a store at index `i` inside the block the first `i + 1` slots are the
old first `i` slots followed by the stored value. -/
theorem store_take_succ (a : PidArray) (i : Nat) (v : Int) (h : i < a.cells.length) :
    (a.store i v).cells.take (i + 1) = a.cells.take i ++ [v] := by
  rw [store_of_lt a i v h]
  apply List.ext_getElem?
  intro k
  simp only [List.getElem?_take, List.getElem?_append, List.length_take]
  have hmin : min i a.cells.length = i := by omega
  rw [hmin]
  by_cases hk : k < i
  · have hk1 : k < i + 1 := by omega
    rw [if_pos hk1, if_pos hk, if_pos hk, List.getElem?_set_ne (by omega)]
  · by_cases hki : k = i
    · subst hki
      simp [h]
    · have hk1 : ¬ k < i + 1 := by omega
      rw [if_neg hk1, if_neg hk]
      have : 1 ≤ k - i := by omega
      simp
      omega

/-- The first loop of `monitorBackgroundPids`, from index `i` on: it polls the
remaining handles in order and stages those reported as terminated. -/
theorem monitorScan_spec (env : Env) (a : PidArray) (n : Nat) (maxT : Nat)
    (hn : n ≤ a.cells.length)
    (hst : ∀ p ∈ a.cells.take n, reportsTermination env p = true →
      isTerminationStatus (env.waitNoHang p).status = true) :
    ∀ (fuel i : Nat) (w : World) (t : PidArray) (nt : Nat), i ≤ n → n + 1 ≤ fuel + i →
      nt + (((a.cells.take n).drop i).filter (reportsTermination env)).length ≤ maxT →
      maxT ≤ t.cells.length →
      ∃ w1 t1 nt1, monitorScan env a n fuel i w t nt maxT = .ok (w1, t1, nt1, maxT) ∧
        w1.polls = w.polls ++ (a.cells.take n).drop i ∧
        t1.cells.length = t.cells.length ∧ nt1 ≤ maxT ∧
        t1.cells.take nt1 =
          t.cells.take nt ++ ((a.cells.take n).drop i).filter (reportsTermination env) := by
  intro fuel
  induction fuel with
  | zero => intro i w t nt hi hf; omega
  | succ f ih =>
    intro i w t nt hi hf hroom hcap
    unfold monitorScan
    by_cases hlt : i < n
    · have hil : i < a.cells.length := by omega
      have hiL : i < (a.cells.take n).length := by simp; omega
      have hLi : (a.cells.take n)[i] = a.cells[i] := by simp
      have hdrop : (a.cells.take n).drop i = a.cells[i] :: (a.cells.take n).drop (i + 1) := by
        rw [← hLi]
        exact List.drop_eq_getElem_cons hiL
      have hmem : a.cells[i] ∈ a.cells.take n := by
        rw [← hLi]
        exact List.getElem_mem _
      obtain ⟨w1, hc, hp⟩ := checkBackgroundPidStatus_polls env w a.cells[i] (hst _ hmem)
      simp only [hlt, if_true, load_of_lt a i hil, hc]
      by_cases hr : reportsTermination env a.cells[i] = true
      · have hcnt : (((a.cells.take n).drop i).filter (reportsTermination env)).length =
            (((a.cells.take n).drop (i + 1)).filter (reportsTermination env)).length + 1 := by
          conv_lhs => rw [hdrop, List.filter_cons_of_pos hr]
          simp
        have hne : nt ≠ maxT := by omega
        simp only [hr, if_true, ne_eq, one_ne_zero, not_false_eq_true,
          appendPidToArray_of_ne t a.cells[i] nt maxT hne]
        obtain ⟨w2, t2, nt2, h2, hp2, hl2, hle2, ht2⟩ :=
          ih (i + 1) w1 (t.store nt a.cells[i]) (nt + 1) (by omega) (by omega) (by omega)
            (by rw [store_cells_length]; exact hcap)
        refine ⟨w2, t2, nt2, h2, ?_, ?_, hle2, ?_⟩
        · rw [hp2, hp, hdrop]
          simp
        · rw [hl2, store_cells_length]
        · rw [ht2, store_take_succ t nt _ (by omega), hdrop, List.filter_cons_of_pos hr]
          simp
      · have hr' : reportsTermination env a.cells[i] = false := by simpa using hr
        have hcnt : (((a.cells.take n).drop i).filter (reportsTermination env)).length =
            (((a.cells.take n).drop (i + 1)).filter (reportsTermination env)).length := by
          conv_lhs => rw [hdrop, List.filter_cons_of_neg (by simpa using hr')]
        simp only [hr', ne_eq, not_true_eq_false, if_false, Bool.false_eq_true]
        obtain ⟨w2, t2, nt2, h2, hp2, hl2, hle2, ht2⟩ :=
          ih (i + 1) w1 t nt (by omega) (by omega) (by omega) hcap
        refine ⟨w2, t2, nt2, h2, ?_, hl2, hle2, ?_⟩
        · rw [hp2, hp, hdrop]
          simp
        · rw [ht2, hdrop, List.filter_cons_of_neg (by simpa using hr')]
    · have hin : i = n := by omega
      subst hin
      simp only [hlt, if_false]
      have hnil : (a.cells.take i).drop i = [] := List.drop_eq_nil_of_le (by simp)
      refine ⟨w, t, nt, rfl, ?_, rfl, by omega, ?_⟩
      · rw [hnil, List.append_nil]
      · rw [hnil, List.filter_nil, List.append_nil]


/-- The second loop of `monitorBackgroundPids`, from index `i` on, where `staged`
are the handles still to be removed. -/
theorem monitorPrune_spec (nt : Nat) :
    ∀ (staged : List Int) (fuel i : Nat) (a t : PidArray) (n : Nat),
      staged.length + 1 ≤ fuel → i + staged.length = nt →
      (∀ k, k < staged.length → t.cells[i + k]? = staged[k]?) →
      n ≤ a.cells.length → (a.cells.take n).Nodup → staged.Nodup →
      (∀ x ∈ staged, x ∈ a.cells.take n) →
      ∃ a1 t1 m, monitorPrune nt fuel i a t n = .ok (a1, t1, m) ∧
        a1.cells.length = a.cells.length ∧ m + staged.length = n ∧
        a1.cells.take m = (a.cells.take n).filter (fun x => !decide (x ∈ staged)) := by
  intro staged
  induction staged with
  | nil =>
    intro fuel i a t n hf hi _ _ _ _ _
    obtain ⟨f, rfl⟩ : ∃ f, fuel = f + 1 := ⟨fuel - 1, by simp at hf; omega⟩
    unfold monitorPrune
    have : ¬ i < nt := by simp at hi; omega
    simp only [this, if_false]
    exact ⟨a, t, n, rfl, rfl, by simp, by simp⟩
  | cons h tl ih =>
    intro fuel i a t n hf hi hget hn hnd hsnd hsub
    obtain ⟨f, rfl⟩ : ∃ f, fuel = f + 1 := ⟨fuel - 1, by simp at hf; omega⟩
    unfold monitorPrune
    have hlt : i < nt := by simp at hi; omega
    have h0 : t.cells[i]? = some h := by simpa using hget 0 (by simp)
    have hload : t.load i = .ok h := by simp [PidArray.load, h0]
    simp only [hlt, if_true, hload]
    obtain ⟨a1, m, hrun, hm, hlen, htake⟩ :=
      removePidFromArray_of_mem a h n hn hnd (hsub h (List.mem_cons_self _ _))
    simp only [hrun]
    have hnd1 : (a1.cells.take m).Nodup := by rw [htake]; exact hnd.filter _
    have hsub1 : ∀ x ∈ tl, x ∈ a1.cells.take m := by
      intro x hx
      rw [htake, List.mem_filter]
      refine ⟨hsub x (List.mem_cons_of_mem _ hx), ?_⟩
      have : x ≠ h := by
        intro hxe
        subst hxe
        exact (List.nodup_cons.mp hsnd).1 hx
      simpa using this
    obtain ⟨a2, t2, m2, hrun2, hlen2, hm2, htake2⟩ :=
      ih f (i + 1) a1 (t.store i 0) m (by simp at hf; omega) (by simp at hi; omega)
        (by
          intro k hk
          rw [store_getElem? t i 0 (i + 1 + k) (by omega)]
          have := hget (k + 1) (by simp; omega)
          simpa [Nat.add_assoc, Nat.add_comm 1 k] using this)
        (by omega) hnd1 (List.nodup_cons.mp hsnd).2 hsub1
    refine ⟨a2, t2, m2, hrun2, by rw [hlen2, hlen], by simp; omega, ?_⟩
    rw [htake2, htake, List.filter_filter]
    apply List.filter_congr
    intro x _
    by_cases hx : x = h
    · simp [hx]
    · simp [hx]


/-! ### The job table: appending and growing -/

/-- Below the recorded capacity `resizeDynamicArrayOfPids` requests no
reallocation and leaves the capacity as it is. -/
theorem resizeDynamicArrayOfPids_of_ne (array : PidArray) (currentSize maxSize : Nat)
    (hne : currentSize ≠ maxSize) :
    resizeDynamicArrayOfPids array currentSize maxSize = .ok (array, maxSize) := by
  simp [resizeDynamicArrayOfPids, hne]

/-- A copy loop that runs past the end of the block stops at the first slot
outside it. -/
theorem copyLoop_past_block (n : Nat) :
    ∀ (fuel i : Nat) (a : PidArray), i ≤ a.cells.length → a.cells.length < n →
      a.cells.length + 1 ≤ fuel + i →
      copyLoop fuel i n a = .error (.oobLoad a.cells.length a.bytes) := by
  intro fuel
  induction fuel with
  | zero => intro i a hi _ hf; omega
  | succ f ih =>
    intro i a hi hn hf
    unfold copyLoop
    have hlt : i < n := by omega
    simp only [hlt, if_true]
    by_cases hil : i < a.cells.length
    · simp only [load_of_lt a i hil]
      have := ih (i + 1) (a.store i a.cells[i]) (by rw [store_cells_length]; omega)
        (by rw [store_cells_length]; exact hn) (by rw [store_cells_length]; omega)
      rw [store_cells_length, store_bytes] at this
      exact this
    · have hie : i = a.cells.length := by omega
      subst hie
      simp [PidArray.load]

/-- On every full table whose block has one slot per unit of capacity, the append
stops at a load outside the re-allocated block: the new block is `2 * capacity`
bytes long, which is room for half the old handles. -/
theorem appendPidToArray_full (array : PidArray) (newPid : Int) (maxNumber : Nat)
    (hmax : 1 ≤ maxNumber) (hlen : array.cells.length = maxNumber) :
    appendPidToArray array newPid maxNumber maxNumber =
      .error (.oobLoad (maxNumber * 2 / sizeofPid) (maxNumber * 2)) := by
  have hslots : (realloc array (maxNumber * 2)).cells.length = maxNumber * 2 / sizeofPid := by
    simp only [realloc, List.length_append, List.length_take, List.length_replicate, hlen]
    unfold sizeofPid
    omega
  have hshort : maxNumber * 2 / sizeofPid < maxNumber := by
    unfold sizeofPid
    omega
  have hcopy := copyLoop_past_block maxNumber (maxNumber + 1) 0 (realloc array (maxNumber * 2))
    (Nat.zero_le _) (by rw [hslots]; exact hshort) (by rw [hslots]; omega)
  rw [hslots] at hcopy
  have hbytes : (realloc array (maxNumber * 2)).bytes = maxNumber * 2 := rfl
  rw [hbytes] at hcopy
  unfold appendPidToArray resizeDynamicArrayOfPids
  simp only [if_true, hcopy]

/-- Claim C3, evaluated on a full table: appending 15 to the table 11, 12, 13, 14
of capacity 4 (a block of 16 bytes) does not yield a table holding the five
handles.  The resize leaves a block of 8 bytes, and the run stops at the load of
slot 2, which is outside that block. -/
theorem appendPidToArray_full_table :
    appendPidToArray ⟨[11, 12, 13, 14], 16, []⟩ 15 4 4 = .error (.oobLoad 2 8) := by
  decide

/-- Claim C4, evaluated on a full table of capacity 4: `resizeDynamicArrayOfPids`
asks `realloc` for 8 bytes, fewer than the `(2 * 4) * sizeof(pid_t) = 32` bytes
that eight handles take, whereas `initializeDynamicPidArray` asks for
`sizeof(pid_t)` bytes per handle. -/
theorem resizeDynamicArrayOfPids_request :
    resizeDynamicArrayOfPids (initializeDynamicPidArray 4) 4 4 = .error (.oobLoad 2 8) ∧
      (realloc (initializeDynamicPidArray 4) (4 * 2)).bytes = 8 ∧
      8 < (2 * 4) * sizeofPid ∧
      (initializeDynamicPidArray 4).bytes = 4 * sizeofPid := by
  decide

/-- The sweep while the staging array has room for the terminated handles (and
is empty on entry, and a check that reports termination delivers a termination
status): `monitorBackgroundPids` polls every handle of a duplicate-free table
exactly once, in table order, and afterwards the table holds exactly the handles
whose check did not report termination, in their original order; `*numberOfPids`
has gone down by the number of terminated handles and `*numberOfTerminatedPids`
is 0.  Without that room the staging array has to grow during the sweep. -/
theorem monitorBackgroundPids_sweep (env : Env) (w : World) (j : Jobs)
    (hsize : j.numberOfPids ≤ j.pidArray.cells.length)
    (hnodup : j.handles.Nodup)
    (hempty : j.numberOfTerminatedPids = 0)
    (hroom : (j.handles.filter (reportsTermination env)).length ≤ j.maxNumberOfTerminatedPids)
    (hcap : j.maxNumberOfTerminatedPids ≤ j.terminatedPids.cells.length)
    (hstatus : ∀ p ∈ j.handles, reportsTermination env p = true →
      isTerminationStatus (env.waitNoHang p).status = true) :
    ∃ w1 j1, monitorBackgroundPids env w j = .ok (w1, j1) ∧
      w1.polls = w.polls ++ j.handles ∧
      j1.handles = j.handles.filter (fun p => !reportsTermination env p) ∧
      j1.numberOfPids + (j.handles.filter (reportsTermination env)).length = j.numberOfPids ∧
      j1.numberOfTerminatedPids = 0 := by
  unfold Jobs.handles at *
  obtain ⟨w1, t1, nt1, hscan, hpolls, hlen, hle, htake⟩ :=
    monitorScan_spec env j.pidArray j.numberOfPids j.maxNumberOfTerminatedPids hsize hstatus
      (j.numberOfPids + 1) 0 w j.terminatedPids j.numberOfTerminatedPids (Nat.zero_le _)
      (by omega) (by rw [hempty]; simpa using hroom) hcap
  rw [hempty] at htake
  simp only [List.take_zero, List.nil_append, List.drop_zero] at htake hpolls
  have hnt : nt1 = ((j.pidArray.cells.take j.numberOfPids).filter (reportsTermination env)).length := by
    have := congrArg List.length htake
    simp only [List.length_take] at this
    omega
  obtain ⟨a1, t2, m, hprune, _, hm, hfilter⟩ :=
    monitorPrune_spec nt1 (t1.cells.take nt1) (nt1 + 1) 0 j.pidArray t1 j.numberOfPids
      (by simp) (by simp; omega)
      (by
        intro k hk
        simp only [List.length_take] at hk
        rw [Nat.zero_add, List.getElem?_take_of_lt (by omega)])
      hsize hnodup (by rw [htake]; exact hnodup.filter _)
      (by
        intro x hx
        rw [htake] at hx
        exact (List.mem_filter.mp hx).1)
  refine ⟨w1, { pidArray := a1
                terminatedPids := t2
                numberOfPids := m
                maxNumberOfPids := j.maxNumberOfPids
                numberOfTerminatedPids := 0
                maxNumberOfTerminatedPids := j.maxNumberOfTerminatedPids }, ?_, hpolls, ?_, ?_, rfl⟩
  · unfold monitorBackgroundPids
    simp only [hscan, hprune]
  · show a1.cells.take m = _
    rw [hfilter, htake]
    apply List.filter_congr
    intro x hx
    simp [List.mem_filter, hx]
  · show m + _ = _
    rw [htake] at hm
    exact hm


/-- A sample sweep with room in the staging array: the table 11, 12, 13, 14, of
which 12 and 14 have terminated. -/
theorem monitorBackgroundPids_sweep_sample :
    ∃ w1 j1, monitorBackgroundPids envSample worldEmpty jobsSample = .ok (w1, j1) ∧
      w1.polls = worldEmpty.polls ++ jobsSample.handles ∧
      j1.handles = jobsSample.handles.filter (fun p => !reportsTermination envSample p) ∧
      j1.numberOfPids + (jobsSample.handles.filter (reportsTermination envSample)).length =
        jobsSample.numberOfPids ∧
      j1.numberOfTerminatedPids = 0 :=
  monitorBackgroundPids_sweep envSample worldEmpty jobsSample (by decide) (by decide)
    (by decide) (by decide) (by decide) (by decide)

/-- Claim C5, evaluated on five terminated handles: for the duplicate-free table
11, 12, 13, 14, 15 and the staging array of four slots, every check reports
termination.  The fifth staging append finds the staging array full and resizes
it to 8 bytes, two slots; the sweep does not end with the table emptied and
`*numberOfPids` at 0 but stops at a load of staging slot 2, outside that block. -/
theorem monitorBackgroundPids_staging_overflow :
    jobsFive.handles = [11, 12, 13, 14, 15] ∧
    jobsFive.handles.Nodup ∧
    jobsFive.handles.filter (reportsTermination envAllDone) = [11, 12, 13, 14, 15] ∧
    monitorBackgroundPids envAllDone worldEmpty jobsFive = .error (.oobLoad 2 8) := by
  decide

/-! ### Status translation -/

theorem WIFEXITED_iff (s : Nat) : WIFEXITED s = true ↔ s % 128 = 0 := by
  simp [WIFEXITED, WTERMSIG]

/-- `WIFSIGNALED` in terms of the low seven bits. -/
theorem WIFSIGNALED_iff (s : Nat) : WIFSIGNALED s = true ↔ 1 ≤ s % 128 ∧ s % 128 ≤ 126 := by
  unfold WIFSIGNALED toSignedChar
  simp only [decide_eq_true_eq]
  have h : s % 128 < 128 := Nat.mod_lt _ (by decide)
  split <;> omega

/-- The two assignments of `assignChildStatus` in terms of the status bits. -/
theorem assignChildStatus_eq (s : Nat) (r : TerminationRecord) :
    assignChildStatus s r =
      if s % 128 = 0 then
        { signalOrTerminated := 0, terminationStatus := ((s / 256 % 256 : Nat) : Int) }
      else if s % 128 ≠ 127 then
        { signalOrTerminated := 1, terminationStatus := ((s % 128 : Nat) : Int) }
      else r := by
  have hlt : s % 128 < 128 := Nat.mod_lt _ (by decide)
  by_cases h0 : s % 128 = 0
  · simp [assignChildStatus, (WIFEXITED_iff s).mpr h0, WEXITSTATUS, h0]
  · have he : WIFEXITED s = false := by
      cases hx : WIFEXITED s with
      | false => rfl
      | true => exact absurd ((WIFEXITED_iff s).mp hx) h0
    by_cases h127 : s % 128 = 127
    · have hs : WIFSIGNALED s = false := by
        cases hx : WIFSIGNALED s with
        | false => rfl
        | true => exact absurd ((WIFSIGNALED_iff s).mp hx) (by omega)
      simp [assignChildStatus, he, hs, h0, h127]
    · have hs : WIFSIGNALED s = true := (WIFSIGNALED_iff s).mpr (by omega)
      simp [assignChildStatus, he, hs, h0, h127, WTERMSIG]

/-- Claim C6: for the wait status of a process that has terminated (its low seven
bits are not the stop marker 127), `assignChildStatus` records exactly one of two
shapes: kind 0 with code bits 8..15 of the status when the low seven bits are
zero, or kind 1 with code the low seven bits when these are a signal number
1..126; exactly one of the two cases applies. -/
theorem assignChildStatus_shapes (s : Nat) (r : TerminationRecord) (hterm : s % 128 ≠ 127) :
    (s % 128 = 0 ∧ ¬ (1 ≤ s % 128 ∧ s % 128 ≤ 126) ∧
        assignChildStatus s r =
          { signalOrTerminated := 0, terminationStatus := ((s / 256 % 256 : Nat) : Int) }) ∨
    (s % 128 ≠ 0 ∧ (1 ≤ s % 128 ∧ s % 128 ≤ 126) ∧
        assignChildStatus s r =
          { signalOrTerminated := 1, terminationStatus := ((s % 128 : Nat) : Int) }) := by
  have hlt : s % 128 < 128 := Nat.mod_lt _ (by decide)
  rw [assignChildStatus_eq]
  by_cases h0 : s % 128 = 0
  · left
    refine ⟨h0, by omega, ?_⟩
    rw [if_pos h0]
  · right
    refine ⟨h0, by omega, ?_⟩
    rw [if_neg h0, if_pos hterm]

/-- Witness for C6: status 768 is an exit with code 3. -/
theorem assignChildStatus_shapes_witness :
    (768 % 128 = 0 ∧ ¬ (1 ≤ 768 % 128 ∧ 768 % 128 ≤ 126) ∧
        assignChildStatus 768 ⟨0, 0⟩ =
          { signalOrTerminated := 0, terminationStatus := ((768 / 256 % 256 : Nat) : Int) }) ∨
    (768 % 128 ≠ 0 ∧ (1 ≤ 768 % 128 ∧ 768 % 128 ≤ 126) ∧
        assignChildStatus 768 ⟨0, 0⟩ =
          { signalOrTerminated := 1, terminationStatus := ((768 % 128 : Nat) : Int) }) :=
  assignChildStatus_shapes 768 ⟨0, 0⟩ (by decide)

/-- A status is a termination status unless its low seven bits are 127. -/
theorem isTerminationStatus_iff (s : Nat) : isTerminationStatus s = true ↔ s % 128 ≠ 127 := by
  unfold isTerminationStatus
  rw [Bool.or_eq_true, WIFEXITED_iff, WIFSIGNALED_iff]
  have h : s % 128 < 128 := Nat.mod_lt _ (by decide)
  omega

/-- Claim C8: when the non-blocking check of handle `p` reports termination with
a wait status `s`, `checkBackgroundPidStatus` prints "background pid p is done: "
followed by "exit value c" for a normal exit with code `c`, or by "terminated by
signal n" for a termination by signal `n` (each line ended by a newline), and
returns 1; when the check reports no termination it prints nothing and returns 0. -/
theorem checkBackgroundPidStatus_report (env : Env) (w : World) (p : Int)
    (hterm : 0 < (env.waitNoHang p).ret → (env.waitNoHang p).status % 128 ≠ 127) :
    ∃ w1,
      checkBackgroundPidStatus env w p =
        .ok (w1, if 0 < (env.waitNoHang p).ret then 1 else 0) ∧
      w1.out =
        (if 0 < (env.waitNoHang p).ret then
          w.out ++ ["background pid " ++ toString p ++ " is done: ",
            if (env.waitNoHang p).status % 128 = 0 then
              "exit value " ++ toString (((env.waitNoHang p).status / 256 % 256 : Nat) : Int) ++ "\n"
            else
              "terminated by signal " ++
                toString (((env.waitNoHang p).status % 128 : Nat) : Int) ++ "\n"]
        else w.out) := by
  unfold checkBackgroundPidStatus
  by_cases hr : 0 < (env.waitNoHang p).ret
  · have hs := (isTerminationStatus_iff _).mpr (hterm hr)
    unfold isTerminationStatus at hs
    simp only [hr, if_true, hs]
    rw [assignChildStatus_eq]
    by_cases h0 : (env.waitNoHang p).status % 128 = 0
    · refine ⟨_, rfl, ?_⟩
      simp [h0, executeStatusCommand, World.print]
    · refine ⟨_, rfl, ?_⟩
      simp [h0, hterm hr, executeStatusCommand, World.print]
  · simp only [hr, if_false]
    exact ⟨_, rfl, rfl⟩


/-- Witness for C8: the check of the sample pid 14, which was killed by signal 9. -/
theorem checkBackgroundPidStatus_report_witness :
    ∃ w1,
      checkBackgroundPidStatus envSample worldEmpty 14 =
        .ok (w1, if 0 < (envSample.waitNoHang 14).ret then 1 else 0) ∧
      w1.out =
        (if 0 < (envSample.waitNoHang 14).ret then
          worldEmpty.out ++ ["background pid " ++ toString (14 : Int) ++ " is done: ",
            if (envSample.waitNoHang 14).status % 128 = 0 then
              "exit value " ++
                toString (((envSample.waitNoHang 14).status / 256 % 256 : Nat) : Int) ++ "\n"
            else
              "terminated by signal " ++
                toString (((envSample.waitNoHang 14).status % 128 : Nat) : Int) ++ "\n"]
        else worldEmpty.out) :=
  checkBackgroundPidStatus_report envSample worldEmpty 14 (by decide)

/-! ### Mode resolution and command dispatch -/

/-- Claim C9: for a foreground-only flag and a requested background flag that are
each 0 or 1, `resolveBackgroundRun` gives 1 exactly when the request is 1 and the
flag is 0; with the flag at 1 it gives 0 whatever was requested; and this value is
the mode with which the main loop calls `processCommand`. -/
theorem resolveBackgroundRun_mode (env : Env) (w : World) (sh : Shell) (arg0 : String)
    (rest : List String)
    (hflag : sh.FOREGROUND_ONLY = 0 ∨ sh.FOREGROUND_ONLY = 1)
    (hreq : sh.runInBackground = 0 ∨ sh.runInBackground = 1)
    (hargs : sh.inputArgs = arg0 :: rest) :
    (resolveBackgroundRun sh.FOREGROUND_ONLY sh.runInBackground = 1 ↔
      sh.runInBackground = 1 ∧ sh.FOREGROUND_ONLY = 0) ∧
    resolveBackgroundRun 1 sh.runInBackground = 0 ∧
    mainIteration env w sh =
      (match processCommand env w arg0 rest
          { exitIndicator := sh.exit
            terminationStatus := sh.terminationStatus
            signalOrTerminated := sh.signalOrTerminated
            runInBackground := resolveBackgroundRun sh.FOREGROUND_ONLY sh.runInBackground }
          sh.redirectInput sh.redirectOutput sh.inputRedirect sh.outputRedirect with
        | .error e => .error e
        | .ok l =>
          afterCommand env
            { sh with runInBackground :=
                resolveBackgroundRun sh.FOREGROUND_ONLY sh.runInBackground } l) := by
  refine ⟨?_, by simp [resolveBackgroundRun], ?_⟩
  · unfold resolveBackgroundRun
    rcases hflag with hf | hf <;> rcases hreq with hb | hb <;> simp [hf, hb]
  · cases sh
    simp only at hargs
    subst hargs
    rfl


/-- Witness for C9: the sample state, with foreground-only mode on and a
background request. -/
theorem resolveBackgroundRun_mode_witness :
    (resolveBackgroundRun shellSample.FOREGROUND_ONLY shellSample.runInBackground = 1 ↔
      shellSample.runInBackground = 1 ∧ shellSample.FOREGROUND_ONLY = 0) ∧
    resolveBackgroundRun 1 shellSample.runInBackground = 0 ∧
    mainIteration envSample worldEmpty shellSample =
      (match processCommand envSample worldEmpty "sleep" ["5"]
          { exitIndicator := shellSample.exit
            terminationStatus := shellSample.terminationStatus
            signalOrTerminated := shellSample.signalOrTerminated
            runInBackground :=
              resolveBackgroundRun shellSample.FOREGROUND_ONLY shellSample.runInBackground }
          shellSample.redirectInput shellSample.redirectOutput shellSample.inputRedirect
          shellSample.outputRedirect with
        | .error e => .error e
        | .ok l =>
          afterCommand envSample
            { shellSample with runInBackground :=
                resolveBackgroundRun shellSample.FOREGROUND_ONLY shellSample.runInBackground } l) :=
  resolveBackgroundRun_mode envSample worldEmpty shellSample "sleep" ["5"] (by decide)
    (by decide) rfl

/-- Comparing with `strncmp` over the first `n` characters of a literal tests for
a leading occurrence of these characters. -/
theorem strncmp_eq_zero_iff (lit : List Char) :
    ∀ (n : Nat) (s : List Char), n ≤ lit.length → (strncmp s lit n = 0 ↔ lit.take n <+: s) := by
  induction lit with
  | nil =>
    intro n s hn
    have : n = 0 := by simpa using hn
    subst this
    simp [strncmp]
  | cons b bs ih =>
    intro n s hn
    cases n with
    | zero => simp [strncmp]
    | succ n =>
      cases s with
      | nil => simp [strncmp]
      | cons a as =>
        have hn' : n ≤ bs.length := by simpa using hn
        simp only [strncmp, List.take_succ_cons, List.cons_prefix_cons]
        by_cases hab : a = b
        · subst hab
          simp [ih n as hn']
        · have hba : ¬ b = a := fun h => hab h.symm
          simp only [hab, hba, if_false, false_and, iff_false]
          split <;> decide

/-- The token "#note" is none of "cd", "exit", "status", "#", yet
`processCommand` handles it in-process; it returns the shell's own pid without
creating a process. -/
theorem processCommand_comment_token_in_process :
    "#note" ∉ ["cd", "exit", "status", "#"] ∧
    processCommand envSample worldEmpty "#note" [] ⟨0, 0, 0, 1⟩ 0 0 "" "" =
      .ok (.returned envSample.shellPid ⟨0, 0, 0, 0⟩ worldEmpty) ∧
    processCommand envSample worldEmpty "#note" [] ⟨0, 0, 0, 1⟩ 0 0 "" "" ≠
      processMultiThreadedCommand envSample worldEmpty "#note" [] ⟨0, 0, 0, 1⟩ 0 0 "" "" := by
  decide

/-- The status display changes no directory. -/
theorem executeStatusCommand_chdirs (r : TerminationRecord) (w : World) :
    (executeStatusCommand r w).chdirs = w.chdirs := by
  unfold executeStatusCommand
  split
  · rfl
  · split <;> rfl

/-- The external-process path leaves the exit indicator and the working directory
as they were. -/
theorem processMultiThreadedCommand_keeps (env : Env) (w : World) (arg0 : String)
    (rest : List String) (st : CmdState) (redirectInput redirectOutput : Int)
    (inputRedirect outputRedirect : String) (pid : Int) (st1 : CmdState) (w1 : World)
    (h : processMultiThreadedCommand env w arg0 rest st redirectInput redirectOutput
      inputRedirect outputRedirect = .ok (.returned pid st1 w1)) :
    st1.exitIndicator = st.exitIndicator ∧ w1.chdirs = w.chdirs := by
  unfold processMultiThreadedCommand at h
  simp only at h
  split at h
  · cases h; exact ⟨rfl, rfl⟩
  · split at h
    · cases h
    · split at h
      · cases h; exact ⟨rfl, rfl⟩
      · split at h
        · split at h
          · cases h
            exact ⟨rfl, executeStatusCommand_chdirs _ _⟩
          · cases h; exact ⟨rfl, rfl⟩
        · cases h

/-- The part of the dispatch that is as intended: `processCommand` runs a command
in-process when its leading token is exactly "cd", "exit" or "status", or begins
with the comment marker "#"; a command whose leading token begins with none of
"cd", "exit", "statu" and "#" takes the external-process path, which neither sets
the exit indicator nor changes directory.  Nothing is said here of a token that
merely begins with "cd", "exit" or "statu". -/
theorem processCommand_dispatch (env : Env) (w : World) (arg0 : String) (rest : List String)
    (st : CmdState) (redirectInput redirectOutput : Int)
    (inputRedirect outputRedirect : String) :
    ((arg0 = "cd" ∨ arg0 = "exit" ∨ arg0 = "status" ∨ "#".toList <+: arg0.toList) →
      processCommand env w arg0 rest st redirectInput redirectOutput inputRedirect
          outputRedirect =
        .ok (.returned env.shellPid
          { (processSingleThreadedCommand env w arg0 rest st).1 with runInBackground := 0 }
          (processSingleThreadedCommand env w arg0 rest st).2)) ∧
    ((¬ "cd".toList <+: arg0.toList ∧ ¬ "exit".toList <+: arg0.toList ∧
        ¬ "statu".toList <+: arg0.toList ∧ ¬ "#".toList <+: arg0.toList) →
      processCommand env w arg0 rest st redirectInput redirectOutput inputRedirect
          outputRedirect =
        processMultiThreadedCommand env w arg0 rest st redirectInput redirectOutput
          inputRedirect outputRedirect ∧
      ∀ pid st1 w1,
        processMultiThreadedCommand env w arg0 rest st redirectInput redirectOutput
            inputRedirect outputRedirect = .ok (.returned pid st1 w1) →
          st1.exitIndicator = st.exitIndicator ∧ w1.chdirs = w.chdirs) := by
  constructor
  · intro h
    have hb : strncmp arg0.toList "cd".toList 2 = 0 ∨ strncmp arg0.toList "exit".toList 4 = 0 ∨
        strncmp arg0.toList "status".toList 5 = 0 ∨ strncmp arg0.toList "#".toList 1 = 0 := by
      rcases h with h | h | h | h
      · subst h; exact Or.inl (by decide)
      · subst h; exact Or.inr (Or.inl (by decide))
      · subst h; exact Or.inr (Or.inr (Or.inl (by decide)))
      · exact Or.inr (Or.inr (Or.inr
          ((strncmp_eq_zero_iff "#".toList 1 arg0.toList (by decide)).mpr h)))
    unfold processCommand
    rw [if_pos hb]
  · intro ⟨hcd, hexit, hstatu, hhash⟩
    have h1 : ¬ strncmp arg0.toList "cd".toList 2 = 0 := fun h =>
      hcd ((strncmp_eq_zero_iff "cd".toList 2 arg0.toList (by decide)).mp h)
    have h2 : ¬ strncmp arg0.toList "exit".toList 4 = 0 := fun h =>
      hexit ((strncmp_eq_zero_iff "exit".toList 4 arg0.toList (by decide)).mp h)
    have h3 : ¬ strncmp arg0.toList "status".toList 5 = 0 := fun h =>
      hstatu ((strncmp_eq_zero_iff "status".toList 5 arg0.toList (by decide)).mp h)
    have h4 : ¬ strncmp arg0.toList "#".toList 1 = 0 := fun h =>
      hhash ((strncmp_eq_zero_iff "#".toList 1 arg0.toList (by decide)).mp h)
    refine ⟨?_, fun pid st1 w1 h =>
      processMultiThreadedCommand_keeps env w arg0 rest st redirectInput redirectOutput
        inputRedirect outputRedirect pid st1 w1 h⟩
    unfold processCommand
    rw [if_neg (by simp only [h1, h2, h3, h4, or_self, not_false_eq_true])]


/-- A sample of the dispatch: "exit" runs in-process and "ls" takes the
external-process path. -/
theorem processCommand_dispatch_sample :
    processCommand envSample worldEmpty "exit" [] ⟨0, 0, 0, 0⟩ 0 0 "" "" =
        .ok (.returned envSample.shellPid
          { (processSingleThreadedCommand envSample worldEmpty "exit" [] ⟨0, 0, 0, 0⟩).1 with
            runInBackground := 0 }
          (processSingleThreadedCommand envSample worldEmpty "exit" [] ⟨0, 0, 0, 0⟩).2) ∧
    processCommand envSample worldEmpty "ls" [] ⟨0, 0, 0, 0⟩ 0 0 "" "" =
      processMultiThreadedCommand envSample worldEmpty "ls" [] ⟨0, 0, 0, 0⟩ 0 0 "" "" :=
  ⟨(processCommand_dispatch envSample worldEmpty "exit" [] ⟨0, 0, 0, 0⟩ 0 0 "" "").1
      (Or.inr (Or.inl rfl)),
   ((processCommand_dispatch envSample worldEmpty "ls" [] ⟨0, 0, 0, 0⟩ 0 0 "" "").2
      (by decide)).1⟩

/-- Claim C10, evaluated on three tokens that merely begin with a builtin name:
"exitnow", "cdrom" and "statu" are none of "cd", "exit", "status", "#", yet
`processCommand` runs each of them in-process, returning the shell's own pid
without creating a process: "exitnow" sets the exit indicator, "cdrom" changes
to the home directory and "statu" prints the status line.  The names are compared
with `strncmp` over 4, 2 and 5 characters only. -/
theorem processCommand_builtin_prefix_tokens :
    "exitnow" ∉ ["cd", "exit", "status", "#"] ∧
    "cdrom" ∉ ["cd", "exit", "status", "#"] ∧
    "statu" ∉ ["cd", "exit", "status", "#"] ∧
    processCommand envSample worldEmpty "exitnow" [] ⟨0, 0, 0, 0⟩ 0 0 "" "" =
      .ok (.returned envSample.shellPid ⟨1, 0, 0, 0⟩ worldEmpty) ∧
    processCommand envSample worldEmpty "cdrom" [] ⟨0, 0, 0, 0⟩ 0 0 "" "" =
      .ok (.returned envSample.shellPid ⟨0, 0, 0, 0⟩
        { worldEmpty with chdirs := ["/home/u"] }) ∧
    processCommand envSample worldEmpty "statu" [] ⟨0, 0, 0, 0⟩ 0 0 "" "" =
      .ok (.returned envSample.shellPid ⟨0, 0, 0, 0⟩
        { worldEmpty with out := ["exit value 0\n"] }) ∧
    processCommand envInChild worldEmpty "exitnow" [] ⟨0, 0, 0, 0⟩ 0 0 "" "" ≠
      processMultiThreadedCommand envInChild worldEmpty "exitnow" [] ⟨0, 0, 0, 0⟩ 0 0 "" "" := by
  decide

/-! ### Failure to create a process -/

/-- When `fork` fails, `processMultiThreadedCommand` reports it through `perror`
and returns -1 with the variables of the caller as they were, in background
mode as in foreground mode. -/
theorem processMultiThreadedCommand_fork_failure (env : Env) (w : World) (arg0 : String)
    (rest : List String) (st : CmdState) (redirectInput redirectOutput : Int)
    (inputRedirect outputRedirect : String) (hfork : env.forkResult = -1) :
    processMultiThreadedCommand env w arg0 rest st redirectInput redirectOutput
        inputRedirect outputRedirect =
      .ok (.returned (-1) st { w with err := w.err ++ ["fork()\n"] }) := by
  simp [processMultiThreadedCommand, hfork]

/-- Claim C11, evaluated on a background request: when `fork` fails on the line
`sleep 5 &`, the pass through the loop appends the handle -1 to the empty job
table, whose size becomes 1, and the sweep then polls pid -1.  The termination
record is unchanged. -/
theorem mainPass_fork_failure_background :
    mainPass envForkFails worldEmpty "sleep 5 &\n" shellInit =
      .ok (.continued
        { shellInit with
            jobs := { shellInit.jobs with pidArray := ⟨[-1, 0, 0, 0], 16, []⟩
                                          numberOfPids := 1 } }
        { out := [":"], err := ["fork()\n"], polls := [-1], blocks := [], chdirs := [] }) := by
  decide

/-- In foreground mode a failed `fork` leaves the job table and the termination
record as they were. -/
theorem mainPass_fork_failure_foreground :
    mainPass envForkFails worldEmpty "sleep 5\n" shellInit =
      .ok (.continued shellInit
        { out := [":"], err := ["fork()\n"], polls := [], blocks := [], chdirs := [] }) := by
  decide

/-! ### The foreground-only signal -/

/-- Claim C12: from either value of `FOREGROUND_ONLY` in {0, 1}, two deliveries
to `handle_SIGTSTP` leave the variables at their starting values; each delivery
flips the flag and prints the notice that belongs to the new value of the flag,
so that exactly one mode-entry notice and one mode-exit notice are printed. -/
theorem handle_SIGTSTP_twice (sh : Shell) (w : World)
    (hflag : sh.FOREGROUND_ONLY = 0 ∨ sh.FOREGROUND_ONLY = 1) :
    (handle_SIGTSTP (handle_SIGTSTP sh w).1 (handle_SIGTSTP sh w).2).1 = sh ∧
    (handle_SIGTSTP sh w).1.FOREGROUND_ONLY = 1 - sh.FOREGROUND_ONLY ∧
    (handle_SIGTSTP sh w).2.out = w.out ++ [modeNotice (1 - sh.FOREGROUND_ONLY)] ∧
    (handle_SIGTSTP (handle_SIGTSTP sh w).1 (handle_SIGTSTP sh w).2).2.out =
      w.out ++ [modeNotice (1 - sh.FOREGROUND_ONLY), modeNotice sh.FOREGROUND_ONLY] ∧
    [modeNotice (1 - sh.FOREGROUND_ONLY), modeNotice sh.FOREGROUND_ONLY].Perm
      ["Entering foreground-only mode (& is now ignored)\n", "Exiting foreground-only mode\n"] := by
  cases sh with
  | mk fo rib ex ts sot ri ro args ir or jobs =>
    simp only at hflag
    rcases hflag with h | h
    · subst h
      refine ⟨by simp [handle_SIGTSTP], by simp [handle_SIGTSTP], ?_, ?_, ?_⟩
      · simp [handle_SIGTSTP, World.print, modeNotice]
      · simp [handle_SIGTSTP, World.print, modeNotice]
      · simp [modeNotice]
    · subst h
      refine ⟨by simp [handle_SIGTSTP], by simp [handle_SIGTSTP], ?_, ?_, ?_⟩
      · simp [handle_SIGTSTP, World.print, modeNotice]
      · simp [handle_SIGTSTP, World.print, modeNotice]
      · simp only [modeNotice]
        exact List.Perm.swap _ _ _

/-- Witness for C12: two deliveries starting with foreground-only mode on. -/
theorem handle_SIGTSTP_twice_witness :
    (handle_SIGTSTP (handle_SIGTSTP shellSample worldEmpty).1
        (handle_SIGTSTP shellSample worldEmpty).2).1 = shellSample ∧
    (handle_SIGTSTP shellSample worldEmpty).1.FOREGROUND_ONLY =
      1 - shellSample.FOREGROUND_ONLY ∧
    (handle_SIGTSTP shellSample worldEmpty).2.out =
      worldEmpty.out ++ [modeNotice (1 - shellSample.FOREGROUND_ONLY)] ∧
    (handle_SIGTSTP (handle_SIGTSTP shellSample worldEmpty).1
        (handle_SIGTSTP shellSample worldEmpty).2).2.out =
      worldEmpty.out ++
        [modeNotice (1 - shellSample.FOREGROUND_ONLY), modeNotice shellSample.FOREGROUND_ONLY] ∧
    [modeNotice (1 - shellSample.FOREGROUND_ONLY), modeNotice shellSample.FOREGROUND_ONLY].Perm
      ["Entering foreground-only mode (& is now ignored)\n", "Exiting foreground-only mode\n"] :=
  handle_SIGTSTP_twice shellSample worldEmpty (by decide)

/-! ### Reading a command line -/

/-- A token that begins with `&` and does not follow a redirection sign sets the
background flag and is not added to the arguments, wherever it stands. -/
theorem parseToken_ampersand (p : ParseState) (tail : List Char)
    (hin : p.nextIsInputRedirect = 0) (hout : p.nextIsOutputRedirect = 0) :
    parseToken p ('&' :: tail) = { p with backgroundProcess := 1 } := by
  simp [parseToken, hin, hout, stripNewline, strncmp]

/-- A token never clears the background flag. -/
theorem parseToken_keeps_background (p : ParseState) (token : List Char)
    (h : p.backgroundProcess = 1) : (parseToken p token).backgroundProcess = 1 := by
  unfold parseToken
  simp only
  split
  · exact h
  · split
    · exact h
    · split
      · rfl
      · split
        · exact h
        · split <;> exact h

/-- Walking over tokens never clears the background flag. -/
theorem foldl_parseToken_keeps_background (tokens : List (List Char)) :
    ∀ p : ParseState, p.backgroundProcess = 1 →
      (tokens.foldl parseToken p).backgroundProcess = 1 := by
  induction tokens with
  | nil => intro p h; exact h
  | cons t ts ih => intro p h; exact ih _ (parseToken_keeps_background p t h)

/-- A background flag that is set when `parseArgs` is called is still set when it
returns, whatever the line. -/
theorem parseArgs_keeps_background (line : String) (sh : Shell) (h : sh.runInBackground = 1) :
    (parseArgs line sh).runInBackground = 1 := by
  unfold parseArgs
  split
  · exact foldl_parseToken_keeps_background _ _ h
  · exact h

/-- A pass without a command resets none of the flags: the background flag keeps
the resolved value and the redirection flags and targets stay. -/
theorem mainIteration_without_command (env : Env) (w : World) (sh sh1 : Shell) (w1 : World)
    (hargs : sh.inputArgs = [])
    (hrun : mainIteration env w sh = .ok (.continued sh1 w1)) :
    sh1.runInBackground = resolveBackgroundRun sh.FOREGROUND_ONLY sh.runInBackground ∧
    sh1.redirectInput = sh.redirectInput ∧ sh1.redirectOutput = sh.redirectOutput ∧
    sh1.inputRedirect = sh.inputRedirect ∧ sh1.outputRedirect = sh.outputRedirect := by
  unfold mainIteration at hrun
  simp only [hargs] at hrun
  split at hrun
  · cases hrun
  · cases hrun
    exact ⟨rfl, rfl, rfl, rfl, rfl⟩

/-- The tokens of a line of spaces: the newline alone. -/
theorem strtokAll_spaces (n : Nat) :
    strtokAll [] (List.replicate n ' ' ++ ['\n']) = [['\n']] := by
  induction n with
  | zero => decide
  | succ n ih =>
    rw [List.replicate_succ, List.cons_append]
    simp only [strtokAll, if_true]
    exact ih

/-- Every line of one or more spaces makes `inputArgs[0]` the empty string. -/
theorem parseArgs_spaces_only (n : Nat) (sh : Shell) :
    (parseArgs (String.mk (List.replicate (n + 1) ' ' ++ ['\n'])) sh).inputArgs = [""] := by
  unfold parseArgs
  have hhead : (String.mk (List.replicate (n + 1) ' ' ++ ['\n'])).toList.head? ≠ some '\n' := by
    simp [List.replicate_succ]
  rw [if_pos hhead]
  show (List.foldl parseToken _ (strtokAll [] (List.replicate (n + 1) ' ' ++ ['\n']))).inputArgs = _
  rw [strtokAll_spaces]
  simp [parseToken, stripNewline, strncmp]

/-- Claim C13, evaluated on two lines: in `ls & -l` the token "&" is not the last
one, and in `echo &x` the token "&x" merely begins with "&"; `parseArgs` sets
the background flag for both lines and drops the token from the argument list. -/
theorem parseArgs_ampersand_anywhere :
    (parseArgs "ls & -l\n" shellInit).runInBackground = 1 ∧
    (parseArgs "ls & -l\n" shellInit).inputArgs = ["ls", "-l"] ∧
    (parseArgs "echo &x\n" shellInit).runInBackground = 1 ∧
    (parseArgs "echo &x\n" shellInit).inputArgs = ["echo"] := by
  decide

/-- Claim C14, evaluated on three lines: the empty line leaves `inputArgs[0]`
null, but the line of three spaces makes `inputArgs[0]` the empty string, for
which the loop creates a process and waits for it, and the line `ls ` with a
trailing space gets the empty string as a second argument. -/
theorem parseArgs_blank_line :
    (parseArgs "\n" shellInit).inputArgs = [] ∧
    (parseArgs "   \n" shellInit).inputArgs = [""] ∧
    mainPass envSample worldEmpty "   \n" shellInit =
      .ok (.continued { shellInit with terminationStatus := 2 }
        { out := [":"], err := [], polls := [], blocks := [50], chdirs := [] }) ∧
    mainPass envInChild worldEmpty "   \n" shellInit =
      .ok (.child [.sigactionSigint, .execvp "" [""]]) ∧
    (parseArgs "ls \n" shellInit).inputArgs = ["ls", ""] := by
  decide

/-! ### Files behind a redirection -/

/-- Claim C15, evaluated on an existing file: `redirectStdout` opens the target
with `O_RDWR | O_CREAT` and no `O_TRUNC`.  A missing file is created, but a file
that holds `hello world` keeps its bytes: after the command has written `ab` and
a newline, the file holds that followed by `lo world`. -/
theorem redirectStdout_keeps_old_bytes :
    (redirectStdout envSample 1 "out.txt").1 =
      [.openFile "out.txt" ["O_RDWR", "O_CREAT"] ["S_IRUSR", "S_IWUSR"], .dup2 3 1] ∧
    stdoutFileAfter (redirectStdout envSample 1 "out.txt").1 none "ab\n".toList =
      some "ab\n".toList ∧
    stdoutFileAfter (redirectStdout envSample 1 "out.txt").1 (some "hello world\n".toList)
        "ab\n".toList =
      some "ab\nlo world\n".toList := by
  decide

/-! ### Handles that cannot be waited for -/

/-- Claim C16, evaluated on a handle without a child: when the non-blocking
`waitpid` for handle 13 returns -1, the sweep polls it, prints nothing and keeps
it in the job table. -/
theorem monitorBackgroundPids_keeps_unwaitable :
    (envNoChild.waitNoHang 13).ret = -1 ∧
    monitorBackgroundPids envNoChild worldEmpty jobsSingle =
      .ok ({ out := [], err := [], polls := [13], blocks := [], chdirs := [] }, jobsSingle) := by
  decide

/-! ### Flags carried from one line to the next -/

/-- Claim C17, evaluated on two pairs of lines: after a line that holds only `&`,
the line `ls` is launched in background (its pid 50 is announced and tracked),
whereas `ls` alone is launched in foreground; after a line that holds only
`> out`, the child for the line `ls` opens `out` as its standard output. -/
theorem mainLoop_flags_carried_over :
    mainLoop envSample ["&\n", "ls\n"] worldEmpty shellInit =
      .ok (.continued
        { shellInit with
            jobs := { shellInit.jobs with pidArray := ⟨[50, 0, 0, 0], 16, []⟩
                                          numberOfPids := 1 } }
        { out := [":", ":", "background pid is 50\n"], err := [], polls := [50, 50],
          blocks := [], chdirs := [] }) ∧
    mainLoop envSample ["ls\n"] worldEmpty shellInit =
      .ok (.continued { shellInit with terminationStatus := 2 }
        { out := [":"], err := [], polls := [], blocks := [50], chdirs := [] }) ∧
    mainLoop envInChild ["> out\n", "ls\n"] worldEmpty shellInit =
      .ok (.child [.sigactionSigint,
        .openFile "out" ["O_RDWR", "O_CREAT"] ["S_IRUSR", "S_IWUSR"], .dup2 3 1, .close 3,
        .execvp "ls" ["ls"]]) := by
  decide

/-! ### Stores of the removal -/

/-- When the removed handle is not the last one and the block has at most
`currentSize + 1` slots, the store `array[j + 1] = 0` after the shift falls
outside the block: index `currentSize + 1` is added to the log of such stores. -/
theorem removePidFromArray_stray_store (array : PidArray) (h : Int) (currentSize p : Nat)
    (hsize : currentSize ≤ array.cells.length)
    (hcap : array.cells.length ≤ currentSize + 1)
    (hp : p + 1 < currentSize)
    (hat : array.cells[p]? = some h)
    (hne : ∀ k, k < currentSize → k ≠ p → array.cells[k]? ≠ some h) :
    ∃ array1, removePidFromArray array h currentSize = .ok (array1, currentSize - 1) ∧
      array1.oob = array.oob ++ [currentSize + 1] := by
  obtain ⟨a1, hrun, _, _, _, hoob⟩ :=
    removeLoop_found h (currentSize + 1) 0 array currentSize p (Nat.zero_le p) (by omega) hsize
      (by omega) hat (fun k _ hk hkp => hne k hk hkp)
  refine ⟨a1, hrun, ?_⟩
  rw [hoob, if_pos ⟨hp, hcap⟩]

/-- Claim C18, evaluated on a full table: removing the first entry 11 of the
table 11, 12, 13, 14 of capacity 4 stores 0 at index 5, which is beyond the
capacity and beyond the size on entry. -/
theorem removePidFromArray_store_past_capacity :
    removePidFromArray ⟨[11, 12, 13, 14], 16, []⟩ 11 4 =
      .ok (⟨[12, 13, 14, 14], 16, [5]⟩, 3) ∧
    removePidFromArray ⟨[11, 12, 13, 14, 15, 16, 17, 18], 32, []⟩ 11 4 =
      .ok (⟨[12, 13, 14, 14, 15, 0, 17, 18], 32, []⟩, 3) := by
  decide

end Tinysh
